import Mathlib

/-!
The supervisor of go-server-starter: a verification development.

A shallow embedding of `starter.go` (the supervisor engine), of `parsePriority`
from `logger/logger.go`, and of the pieces of the Go standard library they call
(`strconv.ParseInt`, `strconv.ParseBool`, `strings.IndexByte`, `strings.Join`,
`strings.ToUpper`, `strings.Split`, `strings.TrimSpace`, `os.Getenv` /
`os.Setenv`), followed by theorems about the embedded functions.

Conventions of the embedding.

* `syscall.Signal` is an integer; the model uses the Linux numbering.  An
  `os.Signal` interface value is `Option Signal`, `none` being Go's `nil`.
* Go strings are modelled by Lean strings; byte-level scans are done on the
  character list (`':'`, `'+'`, `'-'` and decimal digits are single bytes in
  UTF-8, so the first `':'` byte is the first `':'` character).
* Go's `int` and `int64` are 64-bit; values that can leave the range are
  wrapped explicitly.  Pids and the generation counter never get near it.
* A Go `map[int]int` is an `AList`: an association list whose keys are
  pairwise distinct.  `range` over a map visits every entry once, in an
  unspecified order; the model visits `entries` in list order and theorems
  about it are stated independently of that order.
* Everything the operating system decides (does `cmd.Start` succeed, which
  pid does the child get, which signals arrive before the timer fires, does
  `net.Listen` succeed, ...) is an explicit argument.
-/

namespace ServerStarter

/-! ## Signals and the signal name table -/

/-- A `syscall.Signal`. -/
abbrev Signal := Nat

def SIGHUP : Signal := 1
def SIGINT : Signal := 2
def SIGQUIT : Signal := 3
def SIGILL : Signal := 4
def SIGTRAP : Signal := 5
def SIGABRT : Signal := 6
def SIGBUS : Signal := 7
def SIGFPE : Signal := 8
def SIGKILL : Signal := 9
def SIGSEGV : Signal := 11
def SIGPIPE : Signal := 13
def SIGALRM : Signal := 14
def SIGTERM : Signal := 15

/-- A Go map literal or map value used only for lookups: the first binding of a
key is the one the map holds (keys of the literals below are distinct). -/
abbrev Table (κ ν : Type) := List (κ × ν)

/-- Go's `v, ok := m[k]`. -/
def Table.get? {κ ν : Type} [DecidableEq κ] (m : Table κ ν) (k : κ) : Option ν :=
  (m.find? (fun e => decide (e.1 = k))).map Prod.snd

/-- Go's `m[k] = v`. -/
def Table.set {κ ν : Type} [DecidableEq κ] (m : Table κ ν) (k : κ) (v : ν) : Table κ ν :=
  (k, v) :: m.filter (fun e => !decide (e.1 = k))

/-- The map literal returned by `makeNiceSigNamesCommon`. -/
def makeNiceSigNamesCommon : Table Signal String :=
  [ (SIGABRT, "ABRT"),
    (SIGALRM, "ALRM"),
    (SIGBUS, "BUS"),
    (SIGFPE, "FPE"),
    (SIGHUP, "HUP"),
    (SIGILL, "ILL"),
    (SIGINT, "INT"),
    (SIGKILL, "KILL"),
    (SIGPIPE, "PIPE"),
    (SIGQUIT, "QUIT"),
    (SIGSEGV, "SEGV"),
    (SIGTERM, "TERM"),
    (SIGTRAP, "TRAP") ]

/-- The function `makeNiceSigNames`.  `addPlatformDependentNiceSigNames` lives
in a per-platform file that is not part of the sources at hand, so it is an
argument. -/
def makeNiceSigNames (addPlatformDependentNiceSigNames : Table Signal String → Table Signal String) :
    Table Signal String :=
  addPlatformDependentNiceSigNames makeNiceSigNamesCommon

/-- The package-level variables `niceSigNames` and `niceNameToSigs`. -/
structure Globals where
  niceSigNames : Table Signal String
  niceNameToSigs : Table String Signal
  deriving DecidableEq, Repr

/-- The package-level variables before `init` runs: both maps are `nil`. -/
def Globals.zero : Globals := { niceSigNames := [], niceNameToSigs := [] }

/-- The loop `for sig, name := range niceSigNames { m[name] = sig }` of `init`. -/
def invertNames (names : Table Signal String) (m : Table String Signal) : Table String Signal :=
  names.foldl (fun acc e => acc.set e.2 e.1) m

/-- The function `init`.  The statement `niceNameToSigs := make(...)` declares a
NEW local variable (short variable declaration), the loop fills that local, and
the local is dropped at the end of `init`; the package-level `niceNameToSigs`
is never assigned. -/
def init (addPlatformDependentNiceSigNames : Table Signal String → Table Signal String)
    (g : Globals) : Globals :=
  let niceSigNames := makeNiceSigNames addPlatformDependentNiceSigNames
  let niceNameToSigsLocal : Table String Signal := invertNames niceSigNames []
  let _unused := niceNameToSigsLocal
  { g with niceSigNames := niceSigNames }

/-- The function `signame`: `niceSigNames[ss]` for a `syscall.Signal` (the zero
value `""` when the key is absent), `"UNKNOWN"` for anything else (here: the
`nil` interface value). -/
def signame (g : Globals) (s : Option Signal) : String :=
  match s with
  | some ss => (g.niceSigNames.get? ss).getD ""
  | none => "UNKNOWN"

/-- The function `SigFromName`: the signal bound to `n` in the package-level
`niceNameToSigs`, and `nil` when there is none. -/
def SigFromName (g : Globals) (n : String) : Option Signal :=
  match g.niceNameToSigs.get? n with
  | some sig => some sig
  | none => none

/-! ## The standard-library functions the supervisor calls -/

/-- The `Err` field of a `*strconv.NumError`: `strconv.ErrSyntax` or
`strconv.ErrRange`. -/
inductive NumError where
  | ErrSyntax
  | ErrRange
  deriving DecidableEq, Repr

/-- The largest `uint64`. -/
def maxUint64 : Nat := 2 ^ 64 - 1

/-- Conversion to `int64` (two's complement wrap-around). -/
def wrapInt64 (x : Int) : Int := (x + 2 ^ 63) % 2 ^ 64 - 2 ^ 63

/-- The digit loop of `strconv.ParseUint(s, 10, 64)`, started with accumulator
`n`.  For base 10 a byte is acceptable only when it is `'0'..'9'` (letters give
a digit value of at least 10, which is `>= base`; `'_'` is special only for
base 0; every other byte is a syntax error).  The result is the pair
`(value, err)` that Go returns. -/
def parseUintLoop : List Char → Nat → Nat × Option NumError
  | [], n => (n, none)
  | c :: cs, n =>
    if c.isDigit then
      let d := c.toNat - 48
      if n ≥ maxUint64 / 10 + 1 then
        -- n*base overflows
        (maxUint64, some NumError.ErrRange)
      else
        let n10 := n * 10
        let n1 := (n10 + d) % 2 ^ 64
        if n1 < n10 ∨ n1 > maxUint64 then
          -- n+d overflows
          (maxUint64, some NumError.ErrRange)
        else
          parseUintLoop cs n1
    else
      (0, some NumError.ErrSyntax)

/-- The call `strconv.ParseUint(s, 10, 64)`. -/
def ParseUint (s : List Char) : Nat × Option NumError :=
  match s with
  | [] => (0, some NumError.ErrSyntax)
  | _ => parseUintLoop s 0

/-- The calls `strconv.ParseInt(s, 10, 64)` and `strconv.ParseInt(s, 10, 0)`
(bit size 0 means `int`, which is 64 bits wide).  The result is the pair
`(value, err)`; on a range error the value is the nearest bound. -/
def ParseInt (s : String) : Int × Option NumError :=
  match s.data with
  | [] => (0, some NumError.ErrSyntax)
  | c :: cs =>
    -- Pick off leading sign.
    let neg := decide (c = '-')
    let body := if c = '+' then cs else if c = '-' then cs else c :: cs
    -- Convert unsigned and check range.
    let (un, err) := ParseUint body
    if err = some NumError.ErrSyntax then
      (0, err)
    else
      let cutoff : Nat := 2 ^ 63
      if !neg ∧ un ≥ cutoff then
        ((cutoff : Int) - 1, some NumError.ErrRange)
      else if neg ∧ un > cutoff then
        (-(cutoff : Int), some NumError.ErrRange)
      else
        let n := wrapInt64 (un : Int)
        (if neg then wrapInt64 (-n) else n, none)

/-- The function `strconv.ParseBool`. -/
def ParseBool (str : String) : Bool × Option NumError :=
  if str = "1" ∨ str = "t" ∨ str = "T" ∨ str = "true" ∨ str = "TRUE" ∨ str = "True" then
    (true, none)
  else if str = "0" ∨ str = "f" ∨ str = "F" ∨ str = "false" ∨ str = "FALSE" ∨ str = "False" then
    (false, none)
  else
    (false, some NumError.ErrSyntax)

/-- The function `strings.IndexByte`: index of the first `b` in `s`, or `-1`. -/
def IndexByte : List Char → Char → Int
  | [], _ => -1
  | c :: cs, b =>
    if c = b then 0
    else
      let r := IndexByte cs b
      if r < 0 then -1 else r + 1

/-- The verb `%d` of `fmt.Sprintf` for an integer: its decimal text. -/
def fmtInt (n : Int) : String := toString n

/-- The verb `%d` of `fmt.Sprintf` for a non-negative integer. -/
def fmtNat (n : Nat) : String := toString n

/-- The function `strings.Join`. -/
def Join (elems : List String) (sep : String) : String := sep.intercalate elems

/-- The process environment. -/
abbrev Env := Table String String

/-- The function `os.Getenv`: the value of the variable, `""` when it is not set. -/
def Getenv (env : Env) (key : String) : String := (env.get? key).getD ""

/-- The function `os.Setenv`. -/
def Setenv (env : Env) (key value : String) : Env := env.set key value

/-- The constant `time.Second`, a `time.Duration` in nanoseconds. -/
def Second : Int := 1000000000

/-! ## Port specifications and the kill-old delay -/

/-- The function `parsePortSpec`.  The result is the triple `(addr, port, err)`. -/
def parsePortSpec (addr : String) : String × Int × Option NumError :=
  let i := IndexByte addr.data ':'
  let (portPart, addr) :=
    if i < 0 then
      (addr, "")
    else
      (String.mk (addr.data.drop (i + 1).toNat), String.mk (addr.data.take i.toNat))
  match ParseInt portPart with
  | (_, some err) => ("", -1, some err)
  | (port, none) => (addr, port, none)

/-- The display spec `Run` stores for a TCP listener (lines 245-250). -/
def portDisplaySpec (host : String) (port : Int) : String :=
  if host = "" then fmtInt port else host ++ ":" ++ fmtInt port

/-- The function `getKillOldDelay`; both parse errors are ignored, as in the
source.  The result is a `time.Duration`: nanoseconds in an `int64`. -/
def getKillOldDelay (env : Env) : Int :=
  let delay := (ParseInt (Getenv env "KILL_OLD_DELAY")).1
  let autoRestart := (ParseBool (Getenv env "ENABLE_AUTO_RESTART")).1
  let delay := if autoRestart ∧ delay = 0 then 5 else delay
  wrapInt64 (delay * Second)

/-! ## The supervisor: data -/

/-- A process id. -/
abbrev Pid := Int

/-- The dynamic type of a `net.Listener` held by the supervisor; `Run` only
creates these two, so the `default` branch of the type switch in `StartWorker`
has no counterpart. -/
inductive ListenerKind where
  | TCPListener
  | UnixListener
  deriving DecidableEq, Repr

/-- The struct `listener`: the socket (here only its kind) and its display
spec (path or port spec). -/
structure listener where
  kind : ListenerKind
  spec : String
  deriving DecidableEq, Repr

/-- The part of the `Config` interface the modelled code reads. -/
structure Config where
  Command : String
  Ports : List String
  Paths : List String
  SignalOnHUP : Option Signal
  SignalOnTERM : Option Signal
  StatusFile : String
  PidFile : String
  deriving DecidableEq, Repr

/-- The struct `Starter`, without the fields that only feed `exec.Command` and
the logger (`interval`, `dir`, `command`, `args`, `logger`). -/
structure Starter where
  signalOnHUP : Option Signal
  signalOnTERM : Option Signal
  statusFile : String
  pidFile : String
  ports : List String
  paths : List String
  listeners : List listener
  generation : Nat
  deriving DecidableEq, Repr

/-- The function `NewStarter`; `lookPathOk` says whether `exec.LookPath` finds
the command.  `none` is the error return. -/
def NewStarter (c : Option Config) (lookPathOk : Bool) : Option Starter :=
  match c with
  | none => none
  | some c =>
    let signalOnHUP : Option Signal := some SIGTERM
    let signalOnTERM : Option Signal := some SIGTERM
    let signalOnHUP := match c.SignalOnHUP with
      | some s => some s
      | none => signalOnHUP
    let signalOnTERM := match c.SignalOnTERM with
      | some s => some s
      | none => signalOnTERM
    if c.Command = "" then none
    else if !lookPathOk then none
    else
      some
        { signalOnHUP := signalOnHUP
          signalOnTERM := signalOnTERM
          statusFile := c.StatusFile
          pidFile := c.PidFile
          ports := c.Ports
          paths := c.Paths
          listeners := []
          generation := 0 }

/-- What the operating system answers to the supervisor, apart from process
creation: `net.Listen`, the socket-file checks, `os.FindProcess`, the pid-file
open and the environment directory read by `reloadEnv` (`none`: the read
failed or there is no such directory). -/
structure World where
  openPidFileOk : Bool
  listenTCP : String → Bool
  listenUnix : String → Bool
  isSocket : String → Bool
  removeOk : String → Bool
  findErr : Pid → Bool
  envdir : Option (Table String String)

/-- The function `setEnv`: nothing when `ENVDIR` is empty, otherwise every pair
read from the environment directory is put into the environment (a failed read
yields no pairs; the error is only logged by the callers). -/
def setEnv (w : World) (env : Env) : Env :=
  if Getenv env "ENVDIR" = "" then env
  else
    match w.envdir with
    | none => env
    | some m => m.foldl (fun e kv => Setenv e kv.1 kv.2) env

/-! ## The supervisor: listener provisioning (`Run`, lines 229-271) -/

/-- Why `Run` returned an error before launching anything. -/
inductive RunError where
  | pidFile
  | parse (err : NumError)
  | listen
  | remove
  deriving DecidableEq, Repr

/-- The loop `for _, addr := range s.ports` of `Run`, appending to
`s.listeners`. -/
def listenPorts (w : World) : List String → List listener → Except RunError (List listener)
  | [], ls => Except.ok ls
  | addr :: rest, ls =>
    match parsePortSpec addr with
    | (_, _, some err) => Except.error (RunError.parse err)
    | (host, port, none) =>
      let hostport := host ++ ":" ++ fmtInt port
      if w.listenTCP hostport then
        let spec := if host = "" then fmtInt port else host ++ ":" ++ fmtInt port
        listenPorts w rest (ls ++ [{ kind := ListenerKind.TCPListener, spec := spec }])
      else
        Except.error RunError.listen

/-- The loop `for _, path := range s.paths` of `Run`, appending to
`s.listeners`. -/
def listenPaths (w : World) : List String → List listener → Except RunError (List listener)
  | [], ls => Except.ok ls
  | path :: rest, ls =>
    if w.isSocket path ∧ ¬ w.removeOk path then
      Except.error RunError.remove
    else if w.listenUnix path then
      listenPaths w rest (ls ++ [{ kind := ListenerKind.UnixListener, spec := path }])
    else
      Except.error RunError.listen

/-- Lines 219-274 of `Run`: the pid file, the listeners for the ports, then
those for the paths, then `s.generation = 0` and the matching `os.Setenv`. -/
def provision (w : World) (s : Starter) (env : Env) : Except RunError (Starter × Env) :=
  if s.pidFile ≠ "" ∧ ¬ w.openPidFileOk then Except.error RunError.pidFile
  else
    match listenPorts w s.ports s.listeners with
    | Except.error e => Except.error e
    | Except.ok ls =>
      match listenPaths w s.paths ls with
      | Except.error e => Except.error e
      | Except.ok ls =>
        let s := { s with listeners := ls, generation := 0 }
        Except.ok (s, Setenv env "SERVER_STARTER_GENERATION" (fmtNat s.generation))

/-! ## The supervisor: `StartWorker` -/

/-- What the `select` of the grace period receives: the timer channel firing,
or a signal on `sigCh`. -/
inductive GraceEvent where
  | timer
  | signal (sig : Signal)
  deriving DecidableEq, Repr

/-- What the system does with one launch attempt.  `startFails`: `cmd.Start`
returns an error.  `started pid grace findErr lag`: the child runs with process
id `pid`; `grace` is what the `select` loop receives, in order; `findErr` says
whether `os.FindProcess(pid)` returns an error; `lag` says how late each
re-sending goroutine gets to run (see `resend`). -/
inductive Attempt where
  | startFails
  | started (pid : Pid) (grace : List GraceEvent) (findErr : Bool) (lag : List Nat)
  deriving DecidableEq, Repr

/-- Lines 472-493: `ports := make([]string, n)` is passed in as a list of `n`
empty strings and `ports[i]` is assigned for the listener of index `i`.  An
index outside `ports` is a run-time panic: `none`. -/
def fillPorts : List listener → Nat → List String → Option (List String)
  | [], _, ports => some ports
  | l :: ls, i, ports =>
    if i < ports.length then
      fillPorts ls (i + 1) (ports.set i (l.spec ++ "=" ++ fmtNat (i + 3)))
    else
      none

/-- Lines 509-519: the loop `for loop := true; loop; { select { ... } }`.  It
leaves only through the timer case; a signal is appended to `sigs` and the loop
goes round again.  The result is `sigs` and the events not yet received; `none`
when the events given end before the timer fires (the loop is still waiting). -/
def graceWait : List GraceEvent → List Signal → Option (List Signal × List GraceEvent)
  | [], _ => none
  | GraceEvent.timer :: rest, sigs => some (sigs, rest)
  | GraceEvent.signal sig :: rest, sigs => graceWait rest (sigs ++ [sig])

/-- The flag `gotSig` after the loop of lines 524-533. -/
def gotSigAfter (sigs : List Signal) : Bool :=
  sigs.foldl (fun gotSig sig => if sig ≠ SIGHUP then true else gotSig) false

/-- The goroutines `go func() { sigCh <- sig }()` of line 527, one per
iteration of `for _, sig := range sigs`.  The closure refers to the loop
variable `sig`, and every iteration of the loop has a variable of its own (the
language semantics of Go 1.22 and later, which the package gets when it is
built as it stands: no `go.mod` pins an older language version).  The variable
of iteration `i` holds the element of index `i` from then on, so goroutine `i`,
which reads it `lag i` iterations later, sends that element whatever `lag i`
is.  The result lists what goroutine `0`, `1`, ... sends. -/
def resend (sigs : List Signal) (lag : List Nat) : List Signal :=
  let sigOfIteration (i : Nat) (_readAt : Nat) : Option Signal := sigs.get? i
  (List.range sigs.length).filterMap (fun i => sigOfIteration i (i + lag.getD i 0))

/-- What one iteration of the retry loop of `StartWorker` did. -/
structure AttemptRecord where
  generation : Nat
  envPort : String
  envGeneration : String
  pid : Pid
  observed : List Signal
  requeued : List Signal
  deriving DecidableEq, Repr

/-- How an iteration of the retry loop, or the whole of `StartWorker`, ends. -/
inductive Verdict where
  | returned (p : Option Pid)
  | retry
  | waiting
  | panicked
  deriving DecidableEq, Repr

/-- State and trace after part of `StartWorker` has run. -/
structure Launch where
  starter : Starter
  env : Env
  log : List AttemptRecord
  rest : List Attempt
  verdict : Verdict
  deriving DecidableEq, Repr

/-- One iteration of the `for` loop of `StartWorker` (lines 460-562).
`Verdict.returned p` is `return p` (`p` is `nil` when `os.FindProcess` failed),
`Verdict.retry` is reaching the bottom of the loop body. -/
def attempt (s : Starter) (env : Env) (a : Attempt) : Launch :=
  match fillPorts s.listeners 0 (List.replicate (s.ports.length + s.paths.length) "") with
  | none => { starter := s, env := env, log := [], rest := [], verdict := Verdict.panicked }
  | some ports =>
    let s := { s with generation := s.generation + 1 }
    let env := Setenv env "SERVER_STARTER_PORT" (Join ports ";")
    let env := Setenv env "SERVER_STARTER_GENERATION" (fmtNat s.generation)
    let rec0 : AttemptRecord :=
      { generation := s.generation
        envPort := Getenv env "SERVER_STARTER_PORT"
        envGeneration := Getenv env "SERVER_STARTER_GENERATION"
        pid := -1
        observed := []
        requeued := [] }
    match a with
    | Attempt.startFails =>
      { starter := s, env := env, log := [rec0], rest := [], verdict := Verdict.retry }
    | Attempt.started pid grace findErr lag =>
      match graceWait grace [] with
      | none =>
        { starter := s, env := env, log := [{ rec0 with pid := pid }], rest := [],
          verdict := Verdict.waiting }
      | some (sigs, _) =>
        let requeued := resend sigs lag
        let gotSig := gotSigAfter sigs
        let rec1 := { rec0 with pid := pid, observed := sigs, requeued := requeued }
        if gotSig ∨ ¬ findErr then
          { starter := s, env := env, log := [rec1], rest := [],
            verdict := Verdict.returned (if findErr then none else some pid) }
        else
          { starter := s, env := env, log := [rec1], rest := [], verdict := Verdict.retry }

/-- The method `StartWorker`: attempts are made until one returns.  The list
gives what the system does with the successive attempts; when it is used up
before an attempt returns, the verdict is `Verdict.retry` (the loop is still
running). -/
def StartWorker (s : Starter) (env : Env) : List Attempt → Launch
  | [] => { starter := s, env := env, log := [], rest := [], verdict := Verdict.retry }
  | a :: rest =>
    let r := attempt s env a
    match r.verdict with
    | Verdict.retry =>
      let l := StartWorker r.starter r.env rest
      { l with log := r.log ++ l.log }
    | v => { r with rest := rest, verdict := v }

/-! ## The supervisor: the event loop and the shutdown sequence of `Run` -/

/-- The map `oldWorkers` of `Run`: pid to generation. -/
abbrev WorkerMap := AList (fun _ : Pid => Nat)

/-- Go's `len(m)`. -/
def len (m : WorkerMap) : Nat := m.entries.length

/-- The variables the event loop of `Run` works on: the receiver `s`, the
process environment, and the locals `p` (`nil` is `none`), `oldWorkers`,
`sigReceived` and `sigToSend`. -/
structure Loop where
  s : Starter
  env : Env
  p : Option Pid
  oldWorkers : WorkerMap
  sigReceived : Option Signal
  sigToSend : Option Signal

/-- What the `select` of the event loop receives: an exit report on `workerCh`
(only its pid matters) or a signal on `sigCh`. -/
inductive Event where
  | exit (pid : Pid)
  | signal (sig : Signal)
  deriving DecidableEq, Repr

/-- How far `Run` has got. -/
inductive Status where
  | running
  | returned
  | launching
  | panicked
  deriving DecidableEq, Repr

/-- A value sent on `statusCh`: a `map[int]int`, as its list of entries. -/
abbrev StatusMap := Table Int Int

/-- The observable actions of the supervisor: launch attempts, calls of
`worker.Signal` (pid and signal), calls of `time.Sleep`, and values sent on
`statusCh`.  `Run` creates `statusCh` (line 296) and hands it to the reporter
goroutine (line 314); no statement of `Run` or `StartWorker` sends on it, so
every part of the model below contributes the empty list to `status`. -/
structure Effects where
  log : List AttemptRecord
  sent : List (Pid × Option Signal)
  slept : List Int
  status : List StatusMap
  deriving DecidableEq, Repr

/-- No action at all. -/
def Effects.empty : Effects := { log := [], sent := [], slept := [], status := [] }

/-- One batch of actions after another. -/
def Effects.append (a b : Effects) : Effects :=
  { log := a.log ++ b.log, sent := a.sent ++ b.sent, slept := a.slept ++ b.slept,
    status := a.status ++ b.status }

/-- State after one pass, or several, through the event loop. -/
structure Progress where
  st : Loop
  attempts : List Attempt
  events : List Event
  eff : Effects
  status : Status

/-- The loops `for pid := range m { worker, err := os.FindProcess(pid); if err
!= nil { continue }; worker.Signal(sig) }`: the calls of `worker.Signal`. -/
def signalAll (w : World) (m : WorkerMap) (sig : Option Signal) : List (Pid × Option Signal) :=
  m.keys.filterMap (fun pid => if w.findErr pid then Option.none else some (pid, sig))

/-- The statement `p = s.StartWorker(sigCh, workerCh)` inside the loop, with
the bookkeeping of the model: attempts left, actions, and the status when the
call does not return. -/
def relaunch (st : Loop) (attempts : List Attempt) (events : List Event)
    (after : Loop → Effects) : Progress :=
  let l := StartWorker st.s st.env attempts
  let eff : Effects := { log := l.log, sent := [], slept := [], status := [] }
  match l.verdict with
  | Verdict.returned p =>
    let st1 := { st with s := l.starter, env := l.env, p := p }
    { st := st1, attempts := l.rest, events := events, eff := eff.append (after st1),
      status := Status.running }
  | Verdict.panicked =>
    { st := { st with s := l.starter, env := l.env }, attempts := l.rest, events := events,
      eff := eff, status := Status.panicked }
  | _ =>
    { st := { st with s := l.starter, env := l.env }, attempts := l.rest, events := events,
      eff := eff, status := Status.launching }

/-- Lines 397-432: the body of `if restart > 1 || restart > 0 &&
len(oldWorkers) == 0`.  Dereferencing a `nil` `p` panics. -/
def spawnNew (w : World) (st : Loop) (attempts : List Attempt) (events : List Event) : Progress :=
  match st.p with
  | Option.none =>
    { st := st, attempts := attempts, events := events, eff := Effects.empty,
      status := Status.panicked }
  | some pid =>
    let st := { st with oldWorkers := st.oldWorkers.insert pid st.s.generation }
    relaunch st attempts events (fun st1 =>
      let size := len st1.oldWorkers
      if size = 0 then Effects.empty
      else
        let killOldDelay := getKillOldDelay st1.env
        { log := []
          sent := signalAll w st1.oldWorkers st1.s.signalOnHUP
          slept := if killOldDelay > 0 then [killOldDelay] else []
          status := [] })

/-- One pass through the inner `for` loop of `Run` (lines 361-433) for the
event the `select` receives. -/
def step (w : World) (st : Loop) (attempts : List Attempt) (events : List Event)
    (ev : Event) : Progress :=
  match ev with
  | Event.exit stPid =>
    match st.p with
    | Option.none =>
      { st := st, attempts := attempts, events := events, eff := Effects.empty,
        status := Status.panicked }
    | some pid =>
      if pid = stPid then
        -- current worker
        relaunch st attempts events (fun _ => Effects.empty)
      else
        { st := { st with oldWorkers := st.oldWorkers.erase stPid }, attempts := attempts,
          events := events, eff := Effects.empty, status := Status.running }
  | Event.signal sig =>
    let st := { st with sigReceived := some sig }
    if sig = SIGHUP then
      let restart := 1
      let st := { st with sigToSend := st.s.signalOnHUP }
      if restart > 1 ∨ restart > 0 ∧ len st.oldWorkers = 0 then
        spawnNew w st attempts events
      else
        { st := st, attempts := attempts, events := events, eff := Effects.empty,
          status := Status.running }
    else if sig = SIGTERM then
      { st := { st with sigToSend := st.s.signalOnTERM }, attempts := attempts, events := events,
        eff := Effects.empty, status := Status.returned }
    else
      { st := { st with sigToSend := some SIGTERM }, attempts := attempts, events := events,
        eff := Effects.empty, status := Status.returned }

/-- The event loop of `Run` on the events given.  `Status.running`: every event
has been handled and the loop waits for the next; `Status.returned`: the loop
executed `return nil`; `Status.launching`: a call of `StartWorker` has not
returned; `Status.panicked`: a `nil` process was dereferenced. -/
def eventLoop (w : World) : Loop → List Attempt → List Event → Progress
  | st, attempts, [] =>
    { st := st, attempts := attempts, events := [], eff := Effects.empty,
      status := Status.running }
  | st, attempts, ev :: evs =>
    let r := step w st attempts evs ev
    match r.status with
    | Status.running =>
      let r2 := eventLoop w r.st r.attempts evs
      { r2 with eff := r.eff.append r2.eff }
    | _ => r

/-- The loop `for len(oldWorkers) > 0 { st := <-workerCh; delete(oldWorkers,
st.Pid()) }` of the deferred function, on the exit reports given.  The result
is the list of reports consumed when the loop ends, `none` when the reports
given are used up while the map is still non-empty (the loop is blocked on
`workerCh`). -/
def waitExits : List Pid → WorkerMap → Option (List Pid)
  | [], m => if len m > 0 then Option.none else some []
  | pid :: rest, m =>
    if len m > 0 then (waitExits rest (m.erase pid)).map (fun l => pid :: l)
    else some []

/-- What the deferred function of `Run` did. -/
structure Shutdown where
  tracked : WorkerMap
  sent : List (Pid × Option Signal)
  consumed : Option (List Pid)

/-- The deferred function of `Run` (lines 316-351): `p` is put into
`oldWorkers`, `sigToSend` is sent to every pid of the map, and exit reports are
consumed until the map is empty. -/
def shutdown (w : World) (st : Loop) (exits : List Pid) : Shutdown :=
  let oldWorkers := match st.p with
    | some pid => st.oldWorkers.insert pid st.s.generation
    | Option.none => st.oldWorkers
  { tracked := oldWorkers
    sent := signalAll w oldWorkers st.sigToSend
    consumed := waitExits exits oldWorkers }

/-- The exit reports among the events. -/
def exitsOf (events : List Event) : List Pid :=
  events.filterMap (fun ev => match ev with
    | Event.exit pid => some pid
    | Event.signal _ => Option.none)

/-- What a run of the supervisor did. -/
structure RunResult where
  error : Option RunError
  progress : Option Progress
  shutdown : Option Shutdown

/-- The method `Run`: provisioning, the first `StartWorker`, the event loop on
the events given and, once the loop has returned, the deferred shutdown on the
exit reports that follow. -/
def Run (w : World) (s : Starter) (env : Env) (attempts : List Attempt)
    (events : List Event) : RunResult :=
  match provision w s env with
  | Except.error e => { error := some e, progress := Option.none, shutdown := Option.none }
  | Except.ok (s, env) =>
    let env := setEnv w env
    let st0 : Loop :=
      { s := s, env := env, p := Option.none, oldWorkers := ∅,
        sigReceived := Option.none, sigToSend := Option.none }
    let first := relaunch st0 attempts events (fun _ => Effects.empty)
    match first.status with
    | Status.running =>
      let st1 := { first.st with env := setEnv w first.st.env }
      let r := eventLoop w st1 first.attempts events
      let r := { r with eff := first.eff.append r.eff }
      match r.status with
      | Status.returned =>
        { error := Option.none, progress := some r,
          shutdown := some (shutdown w r.st (exitsOf r.events)) }
      | _ => { error := Option.none, progress := some r, shutdown := Option.none }
    | _ => { error := Option.none, progress := some first, shutdown := Option.none }

/-! ## The status reporter (the goroutine of `Run`, lines 297-314) -/

/-- One pass of the loop `for wmap := range ch`: nothing is done when `fn` is
empty, nor when the file cannot be opened; otherwise the file is truncated and
gets one line `%d:%d\n` per entry of the map received, key first (the loop
names the key `gen` and the value `pid`).  The result is the new content of
the file, `none` when the file is left alone. -/
def reportStatus (fn : String) (openOk : Bool) (wmap : StatusMap) : Option String :=
  if fn = "" then Option.none
  else if !openOk then Option.none
  else some (wmap.foldl (fun f e => f ++ (fmtInt e.1 ++ ":" ++ fmtInt e.2 ++ "\n")) "")

/-- The reporter goroutine on the values it receives from `statusCh`: the
successive contents it gives the status file. -/
def statusReporter (fn : String) (openOk : Bool) (received : List StatusMap) : List String :=
  received.filterMap (reportStatus fn openOk)

/-! ## The logger package: `parsePriority` -/

/-- The severities of `log/syslog`. -/
def LOG_EMERG : Nat := 0
def LOG_ALERT : Nat := 1
def LOG_CRIT : Nat := 2
def LOG_ERR : Nat := 3
def LOG_WARNING : Nat := 4
def LOG_NOTICE : Nat := 5
def LOG_INFO : Nat := 6
def LOG_DEBUG : Nat := 7

/-- The facilities of `log/syslog`: the facility number shifted left by 3. -/
def LOG_KERN : Nat := 0
def LOG_USER : Nat := 8
def LOG_MAIL : Nat := 16
def LOG_DAEMON : Nat := 24
def LOG_AUTH : Nat := 32
def LOG_SYSLOG : Nat := 40
def LOG_LPR : Nat := 48
def LOG_NEWS : Nat := 56
def LOG_UUCP : Nat := 64
def LOG_CRON : Nat := 72
def LOG_AUTHPRIV : Nat := 80
def LOG_FTP : Nat := 88
def LOG_LOCAL0 : Nat := 128
def LOG_LOCAL1 : Nat := 136
def LOG_LOCAL2 : Nat := 144
def LOG_LOCAL3 : Nat := 152
def LOG_LOCAL4 : Nat := 160
def LOG_LOCAL5 : Nat := 168
def LOG_LOCAL6 : Nat := 176
def LOG_LOCAL7 : Nat := 184

/-- The errors `parsePriority` returns: the variable `ErrMultipleLevels` and
the value `errors.New("invalid priority")`. -/
inductive PriorityError where
  | ErrMultipleLevels
  | invalidPriority
  deriving DecidableEq, Repr

/-- The function `strings.ToUpper`, rune by rune: ASCII letters go to their
capitals, and so do the two other letters whose upper case is an ASCII letter,
U+017F (long s, to `S`) and U+0131 (dotless i, to `I`).  Every other letter has
an upper case outside ASCII; it is left alone here, which changes nothing for
`parsePriority`, whose names are all ASCII. -/
def ToUpper (s : List Char) : List Char :=
  s.map (fun c => if c.toNat = 383 then 'S' else if c.toNat = 305 then 'I' else c.toUpper)

/-- The function `unicode.IsSpace`: the characters with the Unicode property
White_Space. -/
def IsSpace (c : Char) : Bool :=
  let n := c.toNat
  (9 ≤ n ∧ n ≤ 13) ∨ n = 32 ∨ n = 133 ∨ n = 160 ∨ n = 5760 ∨ (8192 ≤ n ∧ n ≤ 8202)
    ∨ n = 8232 ∨ n = 8233 ∨ n = 8239 ∨ n = 8287 ∨ n = 12288

/-- The function `strings.TrimSpace`. -/
def TrimSpace (s : List Char) : List Char :=
  ((s.dropWhile IsSpace).reverse.dropWhile IsSpace).reverse

/-- The call `strings.Split(s, ",")`: the pieces between the commas; one piece
more than there are commas, so the empty text gives one empty piece. -/
def SplitComma : List Char → List (List Char)
  | [] => [[]]
  | c :: cs =>
    if c = ',' then [] :: SplitComma cs
    else
      match SplitComma cs with
      | [] => [[c]]
      | piece :: pieces => (c :: piece) :: pieces

/-- The `for` loop of `parsePriority` over the terms still to visit, with the
locals `p` and `seenLevel`.  The result is the pair `(priority, err)` that
`parsePriority` returns.  In the case `"NOTICE"` the source has, after the
`if ... else` that the other severities have too, the statement `return
syslog.LOG_NOTICE, nil`: the function returns there. -/
def parseTerms : List (List Char) → Nat → Bool → Nat × Option PriorityError
  | [], p, _ => (p, Option.none)
  | term :: rest, p, seenLevel =>
    match String.mk (TrimSpace term) with
    | "EMERG" =>
      if seenLevel then (0, some PriorityError.ErrMultipleLevels)
      else parseTerms rest (p ||| LOG_EMERG) true
    | "ALERT" =>
      if seenLevel then (0, some PriorityError.ErrMultipleLevels)
      else parseTerms rest (p ||| LOG_ALERT) true
    | "CRIT" =>
      if seenLevel then (0, some PriorityError.ErrMultipleLevels)
      else parseTerms rest (p ||| LOG_CRIT) true
    | "ERR" =>
      if seenLevel then (0, some PriorityError.ErrMultipleLevels)
      else parseTerms rest (p ||| LOG_ERR) true
    | "WARNING" =>
      if seenLevel then (0, some PriorityError.ErrMultipleLevels)
      else parseTerms rest (p ||| LOG_WARNING) true
    | "NOTICE" =>
      if seenLevel then (0, some PriorityError.ErrMultipleLevels)
      else
        -- p |= syslog.LOG_NOTICE; seenLevel = true; and then, after the `if`:
        -- return syslog.LOG_NOTICE, nil
        (LOG_NOTICE, Option.none)
    | "INFO" =>
      if seenLevel then (0, some PriorityError.ErrMultipleLevels)
      else parseTerms rest (p ||| LOG_INFO) true
    | "DEBUG" =>
      if seenLevel then (0, some PriorityError.ErrMultipleLevels)
      else parseTerms rest (p ||| LOG_DEBUG) true
    | "KERN" => parseTerms rest (p ||| LOG_KERN) seenLevel
    | "USER" => parseTerms rest (p ||| LOG_USER) seenLevel
    | "MAIL" => parseTerms rest (p ||| LOG_MAIL) seenLevel
    | "DAEMON" => parseTerms rest (p ||| LOG_DAEMON) seenLevel
    | "AUTH" => parseTerms rest (p ||| LOG_AUTH) seenLevel
    | "SYSLOG" => parseTerms rest (p ||| LOG_SYSLOG) seenLevel
    | "LPR" => parseTerms rest (p ||| LOG_LPR) seenLevel
    | "NEWS" => parseTerms rest (p ||| LOG_NEWS) seenLevel
    | "UUCP" => parseTerms rest (p ||| LOG_UUCP) seenLevel
    | "CRON" => parseTerms rest (p ||| LOG_CRON) seenLevel
    | "AUTHPRIV" => parseTerms rest (p ||| LOG_AUTHPRIV) seenLevel
    | "FTP" => parseTerms rest (p ||| LOG_FTP) seenLevel
    | "LOCAL0" => parseTerms rest (p ||| LOG_LOCAL0) seenLevel
    | "LOCAL1" => parseTerms rest (p ||| LOG_LOCAL1) seenLevel
    | "LOCAL2" => parseTerms rest (p ||| LOG_LOCAL2) seenLevel
    | "LOCAL3" => parseTerms rest (p ||| LOG_LOCAL3) seenLevel
    | "LOCAL4" => parseTerms rest (p ||| LOG_LOCAL4) seenLevel
    | "LOCAL5" => parseTerms rest (p ||| LOG_LOCAL5) seenLevel
    | "LOCAL6" => parseTerms rest (p ||| LOG_LOCAL6) seenLevel
    | "LOCAL7" => parseTerms rest (p ||| LOG_LOCAL7) seenLevel
    | _ => (0, some PriorityError.invalidPriority)

/-- The function `parsePriority`. -/
def parsePriority (priority : String) : Nat × Option PriorityError :=
  parseTerms (SplitComma (ToUpper priority.data)) 0 false

/-! ## Vocabulary of the statements -/

/-- The launch attempts `log`, made from starter `s` with `attempts` on offer
and leaving starter `s1` and the attempts `rest`, are numbered consecutively
from `s.generation + 1`, each with its generation in the environment, and the
listener configuration is untouched. -/
def CountsFrom (s : Starter) (attempts : List Attempt) (log : List AttemptRecord)
    (s1 : Starter) (rest : List Attempt) : Prop :=
  log.map AttemptRecord.generation = List.range' (s.generation + 1) log.length ∧
  s1.generation = s.generation + log.length ∧
  (∀ r, r ∈ log → r.envGeneration = fmtNat r.generation) ∧
  log.length + rest.length = attempts.length ∧
  s1.listeners = s.listeners ∧ s1.ports = s.ports ∧ s1.paths = s.paths

/-- The display spec `Run` gives the listener of a port specification (lines
232-250), when the specification parses. -/
def displaySpecOf (addr : String) : Option String :=
  match parsePortSpec addr with
  | (_, _, some _) => Option.none
  | (host, port, Option.none) => some (portDisplaySpec host port)

/-- The entry of `SERVER_STARTER_PORT` for the listener of index `i`. -/
def portEntry (il : Nat × listener) : String := il.2.spec ++ "=" ++ fmtNat (il.1 + 3)

/-- The port part of a port specification: the text after the first `':'`, or
the whole text when there is no `':'`. -/
def portPartOf (cs : List Char) : List Char :=
  match cs.dropWhile (fun c => !decide (c = ':')) with
  | [] => cs
  | _ :: rest => rest

/-- The address part of a port specification: the text before the first
`':'`, empty when there is no `':'`. -/
def hostPartOf (cs : List Char) : List Char :=
  match cs.dropWhile (fun c => !decide (c = ':')) with
  | [] => []
  | _ :: _ => cs.takeWhile (fun c => !decide (c = ':'))

/-- One or more decimal digits. -/
def isDecimalDigits (ds : List Char) : Bool := !ds.isEmpty && ds.all Char.isDigit

/-- A base-10 integer: an optional sign and one or more decimal digits. -/
def isBase10Integer (cs : List Char) : Bool :=
  match cs with
  | [] => false
  | c :: ds => if c = '+' ∨ c = '-' then isDecimalDigits ds else isDecimalDigits (c :: ds)

/-- The number `n` followed by the decimal digits `ds`. -/
def decimalFrom (n : Nat) (ds : List Char) : Nat :=
  ds.foldl (fun n c => n * 10 + (c.toNat - 48)) n

/-- The number a string of decimal digits denotes. -/
def decimalValue (ds : List Char) : Nat := decimalFrom 0 ds

/-- The integer a base-10 integer text denotes. -/
def intValue (cs : List Char) : Int :=
  match cs with
  | [] => 0
  | c :: ds =>
    if c = '-' then -(decimalValue ds : Int)
    else if c = '+' then (decimalValue ds : Int)
    else (decimalValue (c :: ds) : Int)

/-- The signals among the events of a grace period, in order. -/
def signalsOf (grace : List GraceEvent) : List Signal :=
  grace.filterMap (fun ev => match ev with
    | GraceEvent.signal sig => some sig
    | GraceEvent.timer => Option.none)

/-! ## Concrete inputs used in the examples -/

/-- A system in which every call succeeds and there is no environment
directory. -/
def okWorld : World :=
  { openPidFileOk := true
    listenTCP := fun _ => true
    listenUnix := fun _ => true
    isSocket := fun _ => false
    removeOk := fun _ => true
    findErr := fun _ => false
    envdir := Option.none }

/-- A launch attempt that succeeds with the given pid: no signal arrives
during the grace period and the pid lookup succeeds. -/
def launchOk (pid : Pid) : Attempt := Attempt.started pid [GraceEvent.timer] false []

/-- The starter `NewStarter` builds for one port `"8000"` and default signals. -/
def starter8000 : Starter :=
  { signalOnHUP := some SIGTERM
    signalOnTERM := some SIGTERM
    statusFile := ""
    pidFile := ""
    ports := ["8000"]
    paths := []
    listeners := []
    generation := 0 }

/-- A configuration with one port `"8000"` and no signal overrides. -/
def config8000 : Config :=
  { Command := "/bin/server"
    Ports := ["8000"]
    Paths := []
    SignalOnHUP := Option.none
    SignalOnTERM := Option.none
    StatusFile := ""
    PidFile := "" }

/-- The loop state with `starter8000` provisioned, worker `p` current, the
generation counter at `generation`, and the given retiring map. -/
def loopAt (p : Pid) (generation : Nat) (oldWorkers : WorkerMap) : Loop :=
  { s := { starter8000 with
            listeners := [{ kind := ListenerKind.TCPListener, spec := "8000" }]
            generation := generation }
    env := []
    p := some p
    oldWorkers := oldWorkers
    sigReceived := Option.none
    sigToSend := Option.none }

/-! ## Lemmas on the retiring map -/

theorem len_eq_zero {m : WorkerMap} (h : len m = 0) : m = ∅ := by
  apply AList.ext
  simpa [len, List.length_eq_zero] using h

theorem len_insert_empty (pid : Pid) (g : Nat) :
    len ((∅ : WorkerMap).insert pid g) = 1 := by
  simp [len, AList.insert_entries]

/-! ## The reload signal -/

theorem step_hup_idle (w : World) (st : Loop) (attempts : List Attempt) (events : List Event)
    (h : len st.oldWorkers ≠ 0) :
    step w st attempts events (Event.signal SIGHUP) =
      { st := { st with sigReceived := some SIGHUP, sigToSend := st.s.signalOnHUP },
        attempts := attempts, events := events, eff := Effects.empty,
        status := Status.running } := by
  simp [step, h]

theorem step_hup_spawn (w : World) (st : Loop) (attempts : List Attempt) (events : List Event)
    (pid : Pid) (hp : st.p = some pid) (h : len st.oldWorkers = 0) (q : Option Pid)
    (hq : (StartWorker st.s st.env attempts).verdict = Verdict.returned q) :
    (step w st attempts events (Event.signal SIGHUP)).status = Status.running ∧
    (step w st attempts events (Event.signal SIGHUP)).st.p = q ∧
    (step w st attempts events (Event.signal SIGHUP)).st.oldWorkers
      = st.oldWorkers.insert pid st.s.generation ∧
    (step w st attempts events (Event.signal SIGHUP)).st.s
      = (StartWorker st.s st.env attempts).starter ∧
    (step w st attempts events (Event.signal SIGHUP)).st.env
      = (StartWorker st.s st.env attempts).env ∧
    (step w st attempts events (Event.signal SIGHUP)).attempts
      = (StartWorker st.s st.env attempts).rest ∧
    (step w st attempts events (Event.signal SIGHUP)).eff.log
      = (StartWorker st.s st.env attempts).log ∧
    (step w st attempts events (Event.signal SIGHUP)).st.sigToSend = st.s.signalOnHUP := by
  simp only [step, h, spawnNew, hp, relaunch, hq, Effects.append]
  simp
  split <;> simp [Effects.empty]

/-- C1 (as amended).  Handling SIGHUP with a current worker `pid`:
when the retiring map is empty, the worker `StartWorker` returns becomes the
current worker and `pid` enters `oldWorkers` with the generation counter as it
stood (the generation `pid` was launched with), the relay signal being
`signalOnHUP`; when the retiring map is NOT empty, nothing is launched and
`p`, `oldWorkers`, the starter and the pending attempts are all unchanged.  So
two SIGHUPs in a row from an empty retiring map leave exactly one retiring
entry: the second one is absorbed. -/
theorem C1_sighup_reload (w : World) (st : Loop) (attempts : List Attempt)
    (events : List Event) (pid : Pid) (hp : st.p = some pid) :
    (len st.oldWorkers = 0 → ∀ q : Option Pid,
      (StartWorker st.s st.env attempts).verdict = Verdict.returned q →
        (step w st attempts events (Event.signal SIGHUP)).status = Status.running ∧
        (step w st attempts events (Event.signal SIGHUP)).st.p = q ∧
        (step w st attempts events (Event.signal SIGHUP)).st.oldWorkers
          = st.oldWorkers.insert pid st.s.generation ∧
        (step w st attempts events (Event.signal SIGHUP)).st.oldWorkers.lookup pid
          = some st.s.generation ∧
        (step w st attempts events (Event.signal SIGHUP)).eff.log
          = (StartWorker st.s st.env attempts).log ∧
        (step w st attempts events (Event.signal SIGHUP)).attempts
          = (StartWorker st.s st.env attempts).rest ∧
        (step w st attempts events (Event.signal SIGHUP)).st.sigToSend = st.s.signalOnHUP) ∧
    (len st.oldWorkers ≠ 0 →
        (step w st attempts events (Event.signal SIGHUP)).status = Status.running ∧
        (step w st attempts events (Event.signal SIGHUP)).st.p = some pid ∧
        (step w st attempts events (Event.signal SIGHUP)).st.oldWorkers = st.oldWorkers ∧
        (step w st attempts events (Event.signal SIGHUP)).st.s = st.s ∧
        (step w st attempts events (Event.signal SIGHUP)).attempts = attempts ∧
        (step w st attempts events (Event.signal SIGHUP)).eff = Effects.empty ∧
        (step w st attempts events (Event.signal SIGHUP)).st.sigToSend = st.s.signalOnHUP) ∧
    (len st.oldWorkers = 0 → ∀ q : Option Pid,
      (StartWorker st.s st.env attempts).verdict = Verdict.returned q →
        (eventLoop w st attempts [Event.signal SIGHUP, Event.signal SIGHUP]).status
          = Status.running ∧
        (eventLoop w st attempts [Event.signal SIGHUP, Event.signal SIGHUP]).st.p = q ∧
        (eventLoop w st attempts [Event.signal SIGHUP, Event.signal SIGHUP]).st.oldWorkers.keys
          = [pid] ∧
        (eventLoop w st attempts [Event.signal SIGHUP, Event.signal SIGHUP]).eff.log
          = (StartWorker st.s st.env attempts).log ∧
        (eventLoop w st attempts [Event.signal SIGHUP, Event.signal SIGHUP]).attempts
          = (StartWorker st.s st.env attempts).rest) := by
  refine ⟨?_, ?_, ?_⟩
  · intro h q hq
    obtain ⟨h1, h2, h3, -, -, h6, h7, h8⟩ := step_hup_spawn w st attempts events pid hp h q hq
    refine ⟨h1, h2, h3, ?_, h7, h6, h8⟩
    rw [h3]
    exact AList.lookup_insert _
  · intro h
    rw [step_hup_idle w st attempts events h]
    simp [hp]
  · intro h q hq
    obtain ⟨h1, h2, h3, h4, h5, h6, h7, h8⟩ :=
      step_hup_spawn w st attempts [Event.signal SIGHUP] pid hp h q hq
    have hlen : len (step w st attempts [Event.signal SIGHUP]
        (Event.signal SIGHUP)).st.oldWorkers ≠ 0 := by
      rw [h3, len_eq_zero h, len_insert_empty]
      decide
    have hkeys : (step w st attempts [Event.signal SIGHUP]
        (Event.signal SIGHUP)).st.oldWorkers.keys = [pid] := by
      rw [h3, len_eq_zero h]
      simp [AList.keys_insert]
    simp only [eventLoop, h1]
    rw [step_hup_idle w _ _ _ hlen]
    simp [Effects.append, Effects.empty, h2, hkeys, h6, h7]

/-- C1, an instance of the amended statement: from worker 101 (generation 1)
and an empty retiring map a SIGHUP makes 102 current and retires 101 with
generation 1; from worker 102 with 101 retiring a SIGHUP changes nothing. -/
theorem C1_sighup_reload_witness :
    ((step okWorld (loopAt 101 1 ∅) [launchOk 102] [] (Event.signal SIGHUP)).st.p = some 102 ∧
      (step okWorld (loopAt 101 1 ∅) [launchOk 102] [] (Event.signal SIGHUP)).st.oldWorkers.lookup
        101 = some 1) ∧
    (step okWorld (loopAt 102 2 ((∅ : WorkerMap).insert 101 1)) [launchOk 103] []
        (Event.signal SIGHUP)).st.p = some 102 ∧
    (eventLoop okWorld (loopAt 101 1 ∅) [launchOk 102, launchOk 103]
        [Event.signal SIGHUP, Event.signal SIGHUP]).st.oldWorkers.keys = [101] :=
  ⟨⟨((C1_sighup_reload okWorld (loopAt 101 1 ∅) [launchOk 102] [] 101 rfl).1
        (by decide) (some 102) (by decide)).2.1,
      ((C1_sighup_reload okWorld (loopAt 101 1 ∅) [launchOk 102] [] 101 rfl).1
        (by decide) (some 102) (by decide)).2.2.2.1⟩,
    ((C1_sighup_reload okWorld (loopAt 102 2 ((∅ : WorkerMap).insert 101 1)) [launchOk 103] []
        102 rfl).2.1 (by decide)).2.1,
    ((C1_sighup_reload okWorld (loopAt 101 1 ∅) [launchOk 102, launchOk 103] [] 101 rfl).2.2
        (by decide) (some 102) (by decide)).2.2.1⟩

/-- C1 as stated fails when the retiring map is not empty.  Worker 101
(generation 1) is current, nothing is retiring, and launches yielding pids 102
and 103 are on offer.  After two SIGHUPs with no exit in between the loop is
still running with 102 current and only 101 retiring: the second SIGHUP
launched nothing (the launch of 103 is still pending, only generation 2 was
started) and did not retire 102, so two generations are tracked, not three. -/
theorem C1_second_sighup_launches_nothing :
    (eventLoop okWorld (loopAt 101 1 ∅) [launchOk 102, launchOk 103]
        [Event.signal SIGHUP, Event.signal SIGHUP]).status = Status.running ∧
    (eventLoop okWorld (loopAt 101 1 ∅) [launchOk 102, launchOk 103]
        [Event.signal SIGHUP, Event.signal SIGHUP]).st.p = some 102 ∧
    (eventLoop okWorld (loopAt 101 1 ∅) [launchOk 102, launchOk 103]
        [Event.signal SIGHUP, Event.signal SIGHUP]).st.oldWorkers.keys = [101] ∧
    (eventLoop okWorld (loopAt 101 1 ∅) [launchOk 102, launchOk 103]
        [Event.signal SIGHUP, Event.signal SIGHUP]).attempts = [launchOk 103] ∧
    (eventLoop okWorld (loopAt 101 1 ∅) [launchOk 102, launchOk 103]
        [Event.signal SIGHUP, Event.signal SIGHUP]).eff.log.map AttemptRecord.generation = [2] ∧
    ¬ (len (eventLoop okWorld (loopAt 101 1 ∅) [launchOk 102, launchOk 103]
        [Event.signal SIGHUP, Event.signal SIGHUP]).st.oldWorkers = 2) := by
  decide

/-! ## The shutdown sequence -/

theorem len_eq_keys_length (m : WorkerMap) : len m = m.keys.length := by
  simp [len, AList.keys, List.keys]

theorem not_mem_of_len_zero {m : WorkerMap} (h : ¬ len m > 0) (x : Pid) : x ∉ m := by
  have h0 : len m = 0 := by omega
  rw [len_eq_zero h0]
  exact AList.not_mem_empty x

theorem waitExits_consumes_all :
    ∀ (exits : List Pid) (m : WorkerMap) (consumed : List Pid),
      waitExits exits m = some consumed → ∀ x, x ∈ m → x ∈ consumed := by
  intro exits
  induction exits with
  | nil =>
    intro m consumed h x hx
    by_cases hm : len m > 0
    · simp [waitExits, hm] at h
    · exact absurd hx (not_mem_of_len_zero hm x)
  | cons e rest ih =>
    intro m consumed h x hx
    by_cases hm : len m > 0
    · simp only [waitExits, hm, if_true, Option.map_eq_some'] at h
      obtain ⟨c, hc, rfl⟩ := h
      by_cases hxe : x = e
      · simp [hxe]
      · have : x ∈ m.erase e := AList.mem_erase.mpr ⟨hxe, hx⟩
        exact List.mem_cons_of_mem _ (ih _ _ hc x this)
    · exact absurd hx (not_mem_of_len_zero hm x)

theorem waitExits_initial_part :
    ∀ (exits : List Pid) (m : WorkerMap) (consumed : List Pid),
      waitExits exits m = some consumed → consumed <+: exits := by
  intro exits
  induction exits with
  | nil =>
    intro m consumed h
    by_cases hm : len m > 0
    · simp [waitExits, hm] at h
    · have hc : consumed = [] := by simpa [waitExits, hm, eq_comm] using h
      subst hc
      exact List.nil_prefix
  | cons e rest ih =>
    intro m consumed h
    by_cases hm : len m > 0
    · simp only [waitExits, hm, if_true, Option.map_eq_some'] at h
      obtain ⟨c, hc, rfl⟩ := h
      exact (List.prefix_cons_inj e).mpr (ih _ _ hc)
    · have hc : consumed = [] := by simpa [waitExits, hm, eq_comm] using h
      subst hc
      exact List.nil_prefix

theorem waitExits_finishes :
    ∀ (exits : List Pid) (m : WorkerMap),
      (∀ x, x ∈ m → x ∈ exits) → (waitExits exits m).isSome = true := by
  intro exits
  induction exits with
  | nil =>
    intro m h
    by_cases hm : len m > 0
    · exfalso
      rw [len_eq_keys_length] at hm
      obtain ⟨x, hx⟩ := List.exists_mem_of_length_pos hm
      exact List.not_mem_nil x (h x (AList.mem_keys.mpr hx))
    · simp [waitExits, hm]
  | cons e rest ih =>
    intro m h
    by_cases hm : len m > 0
    · simp only [waitExits, hm, if_true, Option.isSome_map']
      apply ih
      intro x hx
      obtain ⟨hne, hxm⟩ := AList.mem_erase.mp hx
      have := h x hxm
      simpa [hne] using this
    · simp [waitExits, hm]

theorem signalAll_all_found (w : World) (m : WorkerMap) (sig : Option Signal)
    (hfind : ∀ x, w.findErr x = false) :
    signalAll w m sig = m.keys.map (fun pid => (pid, sig)) := by
  have hfun : (fun pid => if w.findErr pid = true then Option.none else some (pid, sig))
      = fun pid => some (pid, sig) := by
    funext pid
    simp [hfind]
  unfold signalAll
  rw [hfun]
  induction m.keys with
  | nil => rfl
  | cons k ks ih => simp [List.filterMap_cons, ih]

theorem count_signalAll (w : World) (m : WorkerMap) (sig : Option Signal)
    (hfind : ∀ x, w.findErr x = false) (x : Pid) :
    List.count x ((signalAll w m sig).map Prod.fst) = if x ∈ m then 1 else 0 := by
  rw [signalAll_all_found w m sig hfind]
  have hmap : (m.keys.map (fun pid => (pid, sig))).map Prod.fst = m.keys := by
    simp [List.map_map, Function.comp_def]
  rw [hmap]
  by_cases hx : x ∈ m
  · rw [if_pos hx]
    exact List.count_eq_one_of_mem m.keys_nodup (AList.mem_keys.mp hx)
  · rw [if_neg hx]
    exact List.count_eq_zero_of_not_mem (fun h => hx (AList.mem_keys.mpr h))

/-- C2.  When the event loop has returned with a current worker `pid` and any
retiring map, the deferred shutdown tracks exactly `pid` and the retiring pids;
with every pid lookup succeeding (as `os.FindProcess` always does on Unix) it
calls `worker.Signal(sigToSend)` exactly once for each tracked pid and makes no
other call (every call carries `sigToSend`); for every sequence of exit reports, if the wait loop ends then it
has consumed a report for every tracked pid (the reports consumed are an
initial part of the sequence), and it does end as soon as the sequence holds a
report for every tracked pid. -/
theorem C2_shutdown_signals_all_and_waits (w : World) (st : Loop) (exits : List Pid)
    (pid : Pid) (hp : st.p = some pid) (hfind : ∀ x, w.findErr x = false) :
    (∀ x, x ∈ (shutdown w st exits).tracked ↔ x = pid ∨ x ∈ st.oldWorkers) ∧
    (∀ x, List.count x ((shutdown w st exits).sent.map Prod.fst)
        = if x = pid ∨ x ∈ st.oldWorkers then 1 else 0) ∧
    (∀ e, e ∈ (shutdown w st exits).sent → e.2 = st.sigToSend) ∧
    (shutdown w st exits).sent.length = len (shutdown w st exits).tracked ∧
    (∀ consumed, (shutdown w st exits).consumed = some consumed →
        consumed <+: exits ∧ ∀ x, x = pid ∨ x ∈ st.oldWorkers → x ∈ consumed) ∧
    ((∀ x, x = pid ∨ x ∈ st.oldWorkers → x ∈ exits) →
        (shutdown w st exits).consumed.isSome = true) := by
  have hmem : ∀ x, x ∈ st.oldWorkers.insert pid st.s.generation ↔ x = pid ∨ x ∈ st.oldWorkers :=
    fun x => AList.mem_insert _
  simp only [shutdown, hp]
  refine ⟨hmem, ?_, ?_, ?_, ?_, ?_⟩
  · intro x
    rw [count_signalAll w _ _ hfind x]
    simp only [hmem]
  · intro e he
    rw [signalAll_all_found w _ _ hfind] at he
    obtain ⟨a, -, rfl⟩ := List.mem_map.mp he
    rfl
  · rw [signalAll_all_found w _ _ hfind, len_eq_keys_length]
    simp
  · intro consumed hc
    exact ⟨waitExits_initial_part _ _ _ hc,
      fun x hx => waitExits_consumes_all _ _ _ hc x ((hmem x).mpr hx)⟩
  · intro h
    exact waitExits_finishes _ _ (fun x hx => h x ((hmem x).mp hx))

/-- C2, an instance: worker 102 current and 101 retiring when SIGTERM ends the
loop; both get the relay signal once, and with the exit reports 102, 101 the
wait ends after both have been consumed. -/
theorem C2_shutdown_signals_all_and_waits_witness :
    List.count (101 : Pid)
        ((shutdown okWorld (loopAt 102 2 ((∅ : WorkerMap).insert 101 1)) [102, 101]).sent.map
          Prod.fst) = 1 ∧
    List.count (102 : Pid)
        ((shutdown okWorld (loopAt 102 2 ((∅ : WorkerMap).insert 101 1)) [102, 101]).sent.map
          Prod.fst) = 1 ∧
    (shutdown okWorld (loopAt 102 2 ((∅ : WorkerMap).insert 101 1)) [102, 101]).consumed.isSome
        = true :=
  ⟨((C2_shutdown_signals_all_and_waits okWorld
        (loopAt 102 2 ((∅ : WorkerMap).insert 101 1)) [102, 101] 102 rfl
        (fun _ => rfl)).2.1 101).trans (by simp [loopAt, AList.mem_keys]),
    ((C2_shutdown_signals_all_and_waits okWorld
        (loopAt 102 2 ((∅ : WorkerMap).insert 101 1)) [102, 101] 102 rfl
        (fun _ => rfl)).2.1 102).trans (by simp [loopAt, AList.mem_keys]),
    (C2_shutdown_signals_all_and_waits okWorld
        (loopAt 102 2 ((∅ : WorkerMap).insert 101 1)) [102, 101] 102 rfl
        (fun _ => rfl)).2.2.2.2.2 (by
          intro x hx
          rcases hx with rfl | hx
          · decide
          · have h101 : x = 101 := by simpa [loopAt, AList.mem_keys] using hx
            simp [h101])⟩

/-! ## The signals that end the loop -/

/-- C3 (as amended).  For every configuration and every loop state: SIGTERM
ends the loop with `sigToSend` set to the configured `signalOnTERM`, whereas
SIGINT and SIGQUIT end the loop with `sigToSend` set to SIGTERM itself, whatever
`signalOnTERM` is. -/
theorem C3_relay_signal_on_termination (w : World) (st : Loop) (attempts : List Attempt)
    (events : List Event) :
    ((step w st attempts events (Event.signal SIGTERM)).status = Status.returned ∧
      (step w st attempts events (Event.signal SIGTERM)).st.sigToSend = st.s.signalOnTERM ∧
      (step w st attempts events (Event.signal SIGTERM)).st.sigReceived = some SIGTERM) ∧
    ((step w st attempts events (Event.signal SIGINT)).status = Status.returned ∧
      (step w st attempts events (Event.signal SIGINT)).st.sigToSend = some SIGTERM ∧
      (step w st attempts events (Event.signal SIGINT)).st.sigReceived = some SIGINT) ∧
    ((step w st attempts events (Event.signal SIGQUIT)).status = Status.returned ∧
      (step w st attempts events (Event.signal SIGQUIT)).st.sigToSend = some SIGTERM ∧
      (step w st attempts events (Event.signal SIGQUIT)).st.sigReceived = some SIGQUIT) := by
  refine ⟨?_, ?_, ?_⟩ <;> simp [step, SIGTERM, SIGINT, SIGQUIT, SIGHUP]

/-- C3 as stated fails for SIGINT (and likewise SIGQUIT): with `signalOnTERM`
configured as SIGQUIT, receiving SIGINT records SIGTERM for relay, not the
configured SIGQUIT. -/
theorem C3_sigint_relays_sigterm_not_configured :
    (step okWorld
        { loopAt 101 1 ∅ with s := { (loopAt 101 1 ∅).s with signalOnTERM := some SIGQUIT } }
        [] [] (Event.signal SIGINT)).st.sigToSend = some SIGTERM ∧
    (step okWorld
        { loopAt 101 1 ∅ with s := { (loopAt 101 1 ∅).s with signalOnTERM := some SIGQUIT } }
        [] [] (Event.signal SIGINT)).st.sigToSend
      ≠ { (loopAt 101 1 ∅).s with signalOnTERM := some SIGQUIT }.signalOnTERM ∧
    (step okWorld
        { loopAt 101 1 ∅ with s := { (loopAt 101 1 ∅).s with signalOnTERM := some SIGQUIT } }
        [] [] (Event.signal SIGQUIT)).st.sigToSend = some SIGTERM := by
  decide

/-! ## Exit reports -/

theorem step_exit_other (w : World) (st : Loop) (attempts : List Attempt)
    (events : List Event) (pid x : Pid) (hp : st.p = some pid) (hx : pid ≠ x) :
    step w st attempts events (Event.exit x) =
      { st := { st with oldWorkers := st.oldWorkers.erase x }, attempts := attempts,
        events := events, eff := Effects.empty, status := Status.running } := by
  simp [step, hp, hx]

/-- C4.  An exit report with pid `x` while `pid` is the current worker.  If
`x = pid`, the worker `StartWorker` returns becomes the current worker and
`oldWorkers` is unchanged.  Otherwise nothing is launched, the current worker
and the starter are unchanged, `x` is no longer in `oldWorkers` and every other
entry is as before.  Hence, starting with nothing retiring, a SIGHUP followed by
the exit report of the retired worker leaves `oldWorkers` empty again (the new
worker `q` being another process than the retired one). -/
theorem C4_exit_event (w : World) (st : Loop) (attempts : List Attempt) (events : List Event)
    (pid x : Pid) (hp : st.p = some pid) :
    (x = pid → ∀ q : Option Pid,
      (StartWorker st.s st.env attempts).verdict = Verdict.returned q →
        (step w st attempts events (Event.exit x)).status = Status.running ∧
        (step w st attempts events (Event.exit x)).st.p = q ∧
        (step w st attempts events (Event.exit x)).st.oldWorkers = st.oldWorkers ∧
        (step w st attempts events (Event.exit x)).eff.log
          = (StartWorker st.s st.env attempts).log ∧
        (step w st attempts events (Event.exit x)).attempts
          = (StartWorker st.s st.env attempts).rest ∧
        (step w st attempts events (Event.exit x)).eff.sent = []) ∧
    (x ≠ pid →
        (step w st attempts events (Event.exit x)).status = Status.running ∧
        (step w st attempts events (Event.exit x)).st.p = some pid ∧
        (step w st attempts events (Event.exit x)).st.s = st.s ∧
        (step w st attempts events (Event.exit x)).attempts = attempts ∧
        (step w st attempts events (Event.exit x)).eff = Effects.empty ∧
        (step w st attempts events (Event.exit x)).st.oldWorkers = st.oldWorkers.erase x ∧
        x ∉ (step w st attempts events (Event.exit x)).st.oldWorkers ∧
        (∀ y, y ≠ x →
          (step w st attempts events (Event.exit x)).st.oldWorkers.lookup y
            = st.oldWorkers.lookup y)) ∧
    (len st.oldWorkers = 0 → ∀ q : Pid, q ≠ pid →
      (StartWorker st.s st.env attempts).verdict = Verdict.returned (some q) →
        (eventLoop w st attempts [Event.signal SIGHUP, Event.exit pid]).status
          = Status.running ∧
        (eventLoop w st attempts [Event.signal SIGHUP, Event.exit pid]).st.p = some q ∧
        len (eventLoop w st attempts [Event.signal SIGHUP, Event.exit pid]).st.oldWorkers
          = 0) := by
  refine ⟨?_, ?_, ?_⟩
  · intro hx q hq
    subst hx
    simp [step, hp, relaunch, hq, Effects.append, Effects.empty]
  · intro hx
    have hne : pid ≠ x := fun h => hx h.symm
    rw [step_exit_other w st attempts events pid x hp hne]
    refine ⟨rfl, hp, rfl, rfl, rfl, rfl, ?_, ?_⟩
    · simp [AList.mem_erase]
    · intro y hy
      exact AList.lookup_erase_ne hy
  · intro h q hq hv
    obtain ⟨h1, h2, h3, -, -, -, -, -⟩ :=
      step_hup_spawn w st attempts [Event.exit pid] pid hp h (some q) hv
    simp only [eventLoop]
    generalize step w st attempts [Event.exit pid] (Event.signal SIGHUP) = r at h1 h2 h3
    simp only [h1]
    rw [step_exit_other w r.st r.attempts [] q pid h2 hq]
    refine ⟨rfl, h2, ?_⟩
    simp only [h3, len_eq_zero h]
    simp [len, AList.insert_entries, AList.erase, List.kerase]

/-- C4, an instance: with 102 current and 101 retiring, the exit of 102
launches 103 and keeps 101 retiring; the exit of 101 empties the retiring map
and keeps 102; and a SIGHUP followed by the exit of the retired 101 leaves
nothing retiring. -/
theorem C4_exit_event_witness :
    ((step okWorld (loopAt 102 2 ((∅ : WorkerMap).insert 101 1)) [launchOk 103] []
        (Event.exit 102)).st.p = some 103 ∧
      (step okWorld (loopAt 102 2 ((∅ : WorkerMap).insert 101 1)) [launchOk 103] []
        (Event.exit 102)).st.oldWorkers = (∅ : WorkerMap).insert 101 1) ∧
    ((step okWorld (loopAt 102 2 ((∅ : WorkerMap).insert 101 1)) [launchOk 103] []
        (Event.exit 101)).st.p = some 102 ∧
      (101 : Pid) ∉ (step okWorld (loopAt 102 2 ((∅ : WorkerMap).insert 101 1)) [launchOk 103] []
        (Event.exit 101)).st.oldWorkers) ∧
    len (eventLoop okWorld (loopAt 101 1 ∅) [launchOk 102]
        [Event.signal SIGHUP, Event.exit 101]).st.oldWorkers = 0 :=
  ⟨⟨((C4_exit_event okWorld (loopAt 102 2 ((∅ : WorkerMap).insert 101 1)) [launchOk 103] []
        102 102 rfl).1 rfl (some 103) (by decide)).2.1,
      ((C4_exit_event okWorld (loopAt 102 2 ((∅ : WorkerMap).insert 101 1)) [launchOk 103] []
        102 102 rfl).1 rfl (some 103) (by decide)).2.2.1⟩,
    ⟨((C4_exit_event okWorld (loopAt 102 2 ((∅ : WorkerMap).insert 101 1)) [launchOk 103] []
        102 101 rfl).2.1 (by decide)).2.1,
      ((C4_exit_event okWorld (loopAt 102 2 ((∅ : WorkerMap).insert 101 1)) [launchOk 103] []
        102 101 rfl).2.1 (by decide)).2.2.2.2.2.2.1⟩,
    ((C4_exit_event okWorld (loopAt 101 1 ∅) [launchOk 102] [] 101 101 rfl).2.2
        (by decide) 102 (by decide) (by decide)).2.2⟩

/-! ## Launch attempts and the generation counter -/

theorem Getenv_Setenv_same (env : Env) (k v : String) : Getenv (Setenv env k v) k = v := by
  simp [Getenv, Setenv, Table.get?, Table.set]

theorem Getenv_Setenv_other (env : Env) (k k' v : String) (h : k ≠ k') :
    Getenv (Setenv env k v) k' = Getenv env k' := by
  simp only [Getenv, Setenv, Table.get?, Table.set, List.find?_cons, decide_eq_true_eq, h,
    decide_False, List.find?_filter]
  congr 2
  apply congrArg (fun p => List.find? p env)
  funext a
  by_cases ha : a.1 = k'
  · have : ¬ a.1 = k := fun hk => h (hk ▸ ha)
    simp [ha, Ne.symm h]
  · simp [ha]

theorem fillPorts_isSome :
    ∀ (ls : List listener) (i : Nat) (ports : List String),
      i + ls.length ≤ ports.length → ∃ out, fillPorts ls i ports = some out := by
  intro ls
  induction ls with
  | nil => intro i ports _; exact ⟨ports, rfl⟩
  | cons l ls ih =>
    intro i ports h
    have hi : i < ports.length := by simp at h; omega
    simp only [fillPorts, hi, if_true]
    apply ih
    simp at h ⊢
    omega

theorem attempt_spec (s : Starter) (env : Env) (a : Attempt)
    (h : s.listeners.length ≤ s.ports.length + s.paths.length) :
    ∃ r, (attempt s env a).log = [r] ∧ r.generation = s.generation + 1 ∧
      r.envGeneration = fmtNat (s.generation + 1) ∧
      (attempt s env a).starter = { s with generation := s.generation + 1 } ∧
      Getenv (attempt s env a).env "SERVER_STARTER_GENERATION" = fmtNat (s.generation + 1) ∧
      (attempt s env a).verdict ≠ Verdict.panicked := by
  obtain ⟨ports, hports⟩ := fillPorts_isSome s.listeners 0
    (List.replicate (s.ports.length + s.paths.length) "") (by simpa using h)
  unfold attempt
  rw [hports]
  cases a with
  | startFails => simp [Getenv_Setenv_same]
  | started pid grace findErr lag =>
    simp only
    split
    · simp [Getenv_Setenv_same]
    · split <;> simp [Getenv_Setenv_same]

theorem StartWorker_spec :
    ∀ (attempts : List Attempt) (s : Starter) (env : Env),
      s.listeners.length ≤ s.ports.length + s.paths.length →
      ((StartWorker s env attempts).log.map AttemptRecord.generation
          = List.range' (s.generation + 1) (StartWorker s env attempts).log.length) ∧
      (StartWorker s env attempts).starter.generation
          = s.generation + (StartWorker s env attempts).log.length ∧
      (∀ r, r ∈ (StartWorker s env attempts).log → r.envGeneration = fmtNat r.generation) ∧
      (StartWorker s env attempts).log.length + (StartWorker s env attempts).rest.length
          = attempts.length ∧
      (StartWorker s env attempts).starter.listeners = s.listeners ∧
      (StartWorker s env attempts).starter.ports = s.ports ∧
      (StartWorker s env attempts).starter.paths = s.paths ∧
      (StartWorker s env attempts).verdict ≠ Verdict.panicked := by
  intro attempts
  induction attempts with
  | nil =>
    intro s env _
    simp [StartWorker]
  | cons a rest ih =>
    intro s env h
    obtain ⟨r, hlog, hgen, henv, hst, -, hv⟩ := attempt_spec s env a h
    have hg : (attempt s env a).starter.generation = s.generation + 1 := by rw [hst]
    have hl : (attempt s env a).starter.listeners = s.listeners := by rw [hst]
    have hpo : (attempt s env a).starter.ports = s.ports := by rw [hst]
    have hpa : (attempt s env a).starter.paths = s.paths := by rw [hst]
    clear hst
    simp only [StartWorker]
    generalize attempt s env a = r0 at hlog hv hg hl hpo hpa
    cases hverdict : r0.verdict with
    | retry =>
      obtain ⟨i1, i2, i3, i4, i5, i6, i7, i8⟩ :=
        ih r0.starter r0.env (by rw [hl, hpo, hpa]; exact h)
      simp only
      refine ⟨?_, ?_, ?_, ?_, i5.trans hl, i6.trans hpo, i7.trans hpa, i8⟩
      · simp [hlog, hgen, i1, hg, List.range'_succ]
      · simp [hlog, i2, hg]
        omega
      · intro r' hr'
        simp only [hlog, List.singleton_append, List.mem_cons] at hr'
        rcases hr' with rfl | hr'
        · rw [henv, hgen]
        · exact i3 r' hr'
      · simp [hlog]
        omega
    | returned p =>
      simp [hlog, hgen, henv, hg, hl, hpo, hpa, List.range'_succ]
      omega
    | waiting =>
      simp [hlog, hgen, henv, hg, hl, hpo, hpa, List.range'_succ]
      omega
    | panicked => exact absurd hverdict hv

theorem CountsFrom.none (s : Starter) (attempts : List Attempt) :
    CountsFrom s attempts [] s attempts := by
  simp [CountsFrom]

theorem CountsFrom.append {s s1 s2 : Starter} {a a1 a2 : List Attempt}
    {l1 l2 : List AttemptRecord} (h1 : CountsFrom s a l1 s1 a1) (h2 : CountsFrom s1 a1 l2 s2 a2) :
    CountsFrom s a (l1 ++ l2) s2 a2 := by
  obtain ⟨x1, x2, x3, x4, x5, x6, x7⟩ := h1
  obtain ⟨y1, y2, y3, y4, y5, y6, y7⟩ := h2
  refine ⟨?_, ?_, ?_, ?_, y5.trans x5, y6.trans x6, y7.trans x7⟩
  · rw [List.map_append, x1, y1, x2, List.length_append]
    have := List.range'_append_1 (s.generation + 1) l1.length l2.length
    rw [Nat.add_comm l1.length l2.length, ← this]
    congr 2
    omega
  · rw [y2, x2, List.length_append]
    omega
  · intro r hr
    rcases List.mem_append.mp hr with hr | hr
    · exact x3 r hr
    · exact y3 r hr
  · rw [List.length_append]
    omega

theorem StartWorker_counts (attempts : List Attempt) (s : Starter) (env : Env)
    (h : s.listeners.length ≤ s.ports.length + s.paths.length) :
    CountsFrom s attempts (StartWorker s env attempts).log (StartWorker s env attempts).starter
      (StartWorker s env attempts).rest ∧
    (StartWorker s env attempts).verdict ≠ Verdict.panicked := by
  obtain ⟨h1, h2, h3, h4, h5, h6, h7, h8⟩ := StartWorker_spec attempts s env h
  exact ⟨⟨h1, h2, h3, h4, h5, h6, h7⟩, h8⟩

theorem relaunch_counts (st : Loop) (attempts : List Attempt) (events : List Event)
    (after : Loop → Effects) (hafter : ∀ st1, (after st1).log = [])
    (h : st.s.listeners.length ≤ st.s.ports.length + st.s.paths.length) :
    CountsFrom st.s attempts (relaunch st attempts events after).eff.log
      (relaunch st attempts events after).st.s (relaunch st attempts events after).attempts := by
  obtain ⟨hc, -⟩ := StartWorker_counts attempts st.s st.env h
  unfold relaunch
  cases hv : (StartWorker st.s st.env attempts).verdict <;>
    simp [hv, Effects.append, hafter, hc]

theorem step_counts (w : World) (st : Loop) (attempts : List Attempt) (events : List Event)
    (ev : Event) (h : st.s.listeners.length ≤ st.s.ports.length + st.s.paths.length) :
    CountsFrom st.s attempts (step w st attempts events ev).eff.log
      (step w st attempts events ev).st.s (step w st attempts events ev).attempts := by
  cases ev with
  | exit x =>
    cases hp : st.p with
    | none => simp [step, hp, Effects.empty, CountsFrom.none]
    | some pid =>
      by_cases hx : pid = x
      · simp only [step, hp, hx, if_true]
        exact relaunch_counts st attempts events _ (fun _ => rfl) h
      · simp [step, hp, hx, Effects.empty, CountsFrom.none]
  | signal sig =>
    by_cases hhup : sig = SIGHUP
    · by_cases hlen : len st.oldWorkers = 0
      · cases hp : st.p with
        | none => simp [step, hhup, hlen, spawnNew, hp, Effects.empty, CountsFrom.none]
        | some pid =>
          simp only [step, hhup, hlen, spawnNew, hp]
          simp only [gt_iff_lt, Nat.lt_irrefl, Nat.lt_one_iff, and_self, or_true, if_true,
            false_or, Nat.zero_lt_one, true_and]
          refine relaunch_counts _ attempts events _ ?_ h
          intro st1
          split <;> rfl
      · simp [step, hhup, hlen, Effects.empty, CountsFrom.none]
    · by_cases hterm : sig = SIGTERM
      · simp [step, hhup, hterm, Effects.empty, CountsFrom.none, SIGTERM, SIGHUP]
      · simp [step, hhup, hterm, Effects.empty, CountsFrom.none]

theorem eventLoop_counts (w : World) :
    ∀ (events : List Event) (st : Loop) (attempts : List Attempt),
      st.s.listeners.length ≤ st.s.ports.length + st.s.paths.length →
      CountsFrom st.s attempts (eventLoop w st attempts events).eff.log
        (eventLoop w st attempts events).st.s (eventLoop w st attempts events).attempts := by
  intro events
  induction events with
  | nil =>
    intro st attempts _
    simp [eventLoop, Effects.empty, CountsFrom.none]
  | cons ev evs ih =>
    intro st attempts h
    have hstep := step_counts w st attempts evs ev h
    simp only [eventLoop]
    generalize step w st attempts evs ev = r at hstep
    cases hs : r.status with
    | running =>
      simp only [Effects.append]
      have hfit : r.st.s.listeners.length ≤ r.st.s.ports.length + r.st.s.paths.length := by
        rw [hstep.2.2.2.2.1, hstep.2.2.2.2.2.1, hstep.2.2.2.2.2.2]
        exact h
      exact hstep.append (ih r.st r.attempts hfit)
    | returned => exact hstep
    | launching => exact hstep
    | panicked => exact hstep

theorem listenPorts_length (w : World) :
    ∀ (ports : List String) (ls ls1 : List listener),
      listenPorts w ports ls = Except.ok ls1 → ls1.length = ls.length + ports.length := by
  intro ports
  induction ports with
  | nil =>
    intro ls ls1 h
    simp only [listenPorts, Except.ok.injEq] at h
    simp [h]
  | cons addr rest ih =>
    intro ls ls1 h
    simp only [listenPorts] at h
    split at h
    · exact absurd h (by simp)
    · split at h
      · have := ih _ _ h
        simp at this ⊢
        omega
      · exact absurd h (by simp)

theorem listenPaths_length (w : World) :
    ∀ (paths : List String) (ls ls1 : List listener),
      listenPaths w paths ls = Except.ok ls1 → ls1.length = ls.length + paths.length := by
  intro paths
  induction paths with
  | nil =>
    intro ls ls1 h
    simp only [listenPaths, Except.ok.injEq] at h
    simp [h]
  | cons path rest ih =>
    intro ls ls1 h
    simp only [listenPaths] at h
    split at h
    · exact absurd h (by simp)
    · split at h
      · have := ih _ _ h
        simp at this ⊢
        omega
      · exact absurd h (by simp)

theorem provision_spec (w : World) (s s1 : Starter) (env env1 : Env)
    (h : provision w s env = Except.ok (s1, env1)) :
    s1.generation = 0 ∧ s1.ports = s.ports ∧ s1.paths = s.paths ∧
    s1.listeners.length = s.listeners.length + s.ports.length + s.paths.length := by
  unfold provision at h
  split at h
  · exact absurd h (by simp)
  · split at h
    · exact absurd h (by simp)
    · rename_i ls hports
      split at h
      · exact absurd h (by simp)
      · rename_i ls2 hpaths
        simp only [Except.ok.injEq, Prod.mk.injEq] at h
        obtain ⟨hs, -⟩ := h
        subst hs
        have h1 := listenPorts_length w _ _ _ hports
        have h2 := listenPaths_length w _ _ _ hpaths
        simp only [true_and]
        omega

theorem NewStarter_listeners (c : Option Config) (ok : Bool) (s : Starter)
    (h : NewStarter c ok = some s) : s.listeners = [] := by
  unfold NewStarter at h
  split at h
  · exact absurd h (by simp)
  · simp only at h
    split at h
    · exact absurd h (by simp)
    · split at h
      · exact absurd h (by simp)
      · simp only [Option.some.injEq] at h
        rw [← h]

theorem Run_counts (w : World) (s : Starter) (env : Env) (attempts : List Attempt)
    (events : List Event) (hs : s.listeners = []) (r : Progress)
    (hr : (Run w s env attempts events).progress = some r) :
    r.eff.log.map AttemptRecord.generation = List.range' 1 r.eff.log.length ∧
    r.st.s.generation = r.eff.log.length ∧
    (∀ x, x ∈ r.eff.log → x.envGeneration = fmtNat x.generation) ∧
    r.eff.log.length + r.attempts.length = attempts.length := by
  unfold Run at hr
  split at hr
  · exact absurd hr (by simp)
  · rename_i s1 env1 hprov
    obtain ⟨hg, hpo, hpa, hl⟩ := provision_spec w s s1 env env1 hprov
    have hfit : s1.listeners.length ≤ s1.ports.length + s1.paths.length := by
      rw [hl, hs, hpo, hpa]
      simp
    simp only at hr
    have hfirst := relaunch_counts
      { s := s1, env := setEnv w env1, p := Option.none, oldWorkers := ∅,
        sigReceived := Option.none, sigToSend := Option.none }
      attempts events (fun _ => Effects.empty) (fun _ => rfl) hfit
    generalize relaunch
      { s := s1, env := setEnv w env1, p := Option.none, oldWorkers := ∅,
        sigReceived := Option.none, sigToSend := Option.none }
      attempts events (fun _ => Effects.empty) = first at hr hfirst
    simp only at hfirst
    have hfit1 : first.st.s.listeners.length
        ≤ first.st.s.ports.length + first.st.s.paths.length := by
      rw [hfirst.2.2.2.2.1, hfirst.2.2.2.2.2.1, hfirst.2.2.2.2.2.2]
      exact hfit
    have hloop := eventLoop_counts w events { first.st with env := setEnv w first.st.env }
      first.attempts hfit1
    have hall := hfirst.append hloop
    have key : ∀ (log : List AttemptRecord) (s2 : Starter) (rest : List Attempt),
        CountsFrom s1 attempts log s2 rest →
        log.map AttemptRecord.generation = List.range' 1 log.length ∧
        s2.generation = log.length ∧
        (∀ x, x ∈ log → x.envGeneration = fmtNat x.generation) ∧
        log.length + rest.length = attempts.length := by
      intro log s2 rest hc
      obtain ⟨c1, c2, c3, c4, -⟩ := hc
      rw [hg] at c1 c2
      exact ⟨by simpa using c1, by simpa using c2, c3, c4⟩
    split at hr
    · split at hr
      · simp only [Option.some.injEq] at hr
        subst hr
        exact key _ _ _ hall
      · simp only [Option.some.injEq] at hr
        subst hr
        exact key _ _ _ hall
    · simp only [Option.some.injEq] at hr
      subst hr
      exact key _ _ _ hfirst

/-- C5.  Every launch attempt (whether `cmd.Start` fails, the liveness check
fails, or the attempt succeeds) made with the listeners provisioned raises
`Starter.generation` by exactly 1 and leaves the decimal text of the new value
in `SERVER_STARTER_GENERATION`.  And for every run of `Run` on a starter made
by `NewStarter`, whatever the system answers and whatever events arrive, the
attempts made so far carry the generations 1, 2, 3, ... in order: the attempt
of index `k` (counting from 0) has generation `k + 1` and ran with
`SERVER_STARTER_GENERATION` set to the text of `k + 1`; one record is logged
per attempt consumed, and the counter equals the number of attempts made. -/
theorem C5_generation_counts_attempts :
    (∀ (s : Starter) (env : Env) (a : Attempt),
        s.listeners.length ≤ s.ports.length + s.paths.length →
        (attempt s env a).starter.generation = s.generation + 1 ∧
        Getenv (attempt s env a).env "SERVER_STARTER_GENERATION" = fmtNat (s.generation + 1)) ∧
    (∀ (w : World) (c : Config) (lookPathOk : Bool) (s : Starter) (env : Env)
        (attempts : List Attempt) (events : List Event) (r : Progress),
        NewStarter (some c) lookPathOk = some s →
        (Run w s env attempts events).progress = some r →
        r.eff.log.map AttemptRecord.generation = List.range' 1 r.eff.log.length ∧
        (∀ k x, r.eff.log.get? k = some x →
          x.generation = k + 1 ∧ x.envGeneration = fmtNat (k + 1)) ∧
        r.eff.log.length + r.attempts.length = attempts.length ∧
        r.st.s.generation = r.eff.log.length) := by
  refine ⟨?_, ?_⟩
  · intro s env a h
    obtain ⟨r, -, -, -, hst, henv, -⟩ := attempt_spec s env a h
    exact ⟨by rw [hst], henv⟩
  · intro w c lookPathOk s env attempts events r hs hr
    obtain ⟨h1, h2, h3, h4⟩ :=
      Run_counts w s env attempts events (NewStarter_listeners _ _ _ hs) r hr
    refine ⟨h1, ?_, h4, h2⟩
    intro k x hk
    have hgen : x.generation = k + 1 := by
      have hmap : (r.eff.log.map AttemptRecord.generation).get? k = some x.generation := by
        simp [List.get?_eq_getElem?] at hk ⊢
        exact ⟨x, hk, rfl⟩
      rw [h1, List.get?_eq_getElem?] at hmap
      have hlt : k < (List.range' 1 r.eff.log.length).length := by
        by_contra hc
        rw [List.getElem?_eq_none (by omega)] at hmap
        exact absurd hmap (by simp)
      rw [List.getElem?_eq_getElem hlt, List.getElem_range'] at hmap
      simp at hmap
      omega
    refine ⟨hgen, ?_⟩
    rw [← hgen]
    exact h3 x (List.get?_mem hk)

/-- C5, an instance: a run in which the first attempt fails to start, the
second yields worker 101, and the exit of 101 leads to a third attempt. -/
theorem C5_generation_counts_attempts_witness :
    ((attempt starter8000 [] Attempt.startFails).starter.generation = 0 + 1 ∧
      Getenv (attempt starter8000 [] Attempt.startFails).env "SERVER_STARTER_GENERATION"
        = "1") ∧
    ∃ r, (Run okWorld starter8000 [] [Attempt.startFails, launchOk 101, launchOk 102]
        [Event.exit 101]).progress = some r ∧
      r.eff.log.map AttemptRecord.generation = List.range' 1 r.eff.log.length ∧
      r.st.s.generation = r.eff.log.length := by
  refine ⟨C5_generation_counts_attempts.1 starter8000 [] Attempt.startFails (by decide), ?_⟩
  have hsome : (Run okWorld starter8000 [] [Attempt.startFails, launchOk 101, launchOk 102]
      [Event.exit 101]).progress.isSome = true := by decide
  obtain ⟨r, hr⟩ := Option.isSome_iff_exists.mp hsome
  have h := C5_generation_counts_attempts.2 okWorld config8000 true starter8000 []
    [Attempt.startFails, launchOk 101, launchOk 102] [Event.exit 101] r (by decide) hr
  exact ⟨r, hr, h.1, h.2.2.2⟩

/-! ## The port mapping handed to the worker -/

theorem fillPorts_eq :
    ∀ (ls : List listener) (i : Nat) (pre : List String) (k : Nat), pre.length = i →
      fillPorts ls i (pre ++ List.replicate (ls.length + k) "")
        = some (pre ++ (ls.enumFrom i).map portEntry ++ List.replicate k "") := by
  intro ls
  induction ls with
  | nil =>
    intro i pre k _
    simp [fillPorts]
  | cons l ls ih =>
    intro i pre k hi
    have hlt : i < (pre ++ List.replicate ((l :: ls).length + k) "").length := by
      simp
      omega
    simp only [fillPorts, hlt, if_true]
    have hset : (pre ++ List.replicate ((l :: ls).length + k) "").set i
          (l.spec ++ "=" ++ fmtNat (i + 3))
        = (pre ++ [l.spec ++ "=" ++ fmtNat (i + 3)]) ++ List.replicate (ls.length + k) "" := by
      rw [List.set_append_right _ _ (by omega)]
      have hrep : List.replicate ((l :: ls).length + k) ""
          = "" :: List.replicate (ls.length + k) "" := by
        rw [List.length_cons, Nat.add_right_comm, List.replicate_succ]
      rw [hrep, hi, Nat.sub_self]
      simp
    rw [hset, ih (i + 1) (pre ++ [l.spec ++ "=" ++ fmtNat (i + 3)]) k (by simp [hi])]
    simp [portEntry]

theorem attempt_envPort (s : Starter) (env : Env) (a : Attempt)
    (h : s.listeners.length = s.ports.length + s.paths.length) :
    Getenv (attempt s env a).env "SERVER_STARTER_PORT"
      = Join (s.listeners.enum.map portEntry) ";" := by
  have hfill := fillPorts_eq s.listeners 0 [] 0 rfl
  simp only [Nat.add_zero, List.nil_append, List.replicate_zero, List.append_nil] at hfill
  have hne : "SERVER_STARTER_GENERATION" ≠ "SERVER_STARTER_PORT" := by decide
  unfold attempt
  rw [← h, hfill]
  cases a with
  | startFails => simp [Getenv_Setenv_same, Getenv_Setenv_other _ _ _ _ hne, List.enum]
  | started pid grace findErr lag =>
    simp only
    split
    · simp [Getenv_Setenv_same, Getenv_Setenv_other _ _ _ _ hne, List.enum]
    · split <;> simp [Getenv_Setenv_same, Getenv_Setenv_other _ _ _ _ hne, List.enum]

theorem listenPorts_specs (w : World) :
    ∀ (ports : List String) (ls ls1 : List listener),
      listenPorts w ports ls = Except.ok ls1 →
      ∃ specs : List String, ports.map displaySpecOf = specs.map some ∧
        ls1.map listener.spec = ls.map listener.spec ++ specs := by
  intro ports
  induction ports with
  | nil =>
    intro ls ls1 h
    simp only [listenPorts, Except.ok.injEq] at h
    exact ⟨[], by simp [h]⟩
  | cons addr rest ih =>
    intro ls ls1 h
    simp only [listenPorts] at h
    split at h
    · exact absurd h (by simp)
    · rename_i host port hparse
      split at h
      · obtain ⟨specs, h1, h2⟩ := ih _ _ h
        refine ⟨portDisplaySpec host port :: specs, ?_, ?_⟩
        · simp [displaySpecOf, hparse, h1]
        · rw [h2]
          simp [portDisplaySpec]
      · exact absurd h (by simp)

theorem listenPaths_specs (w : World) :
    ∀ (paths : List String) (ls ls1 : List listener),
      listenPaths w paths ls = Except.ok ls1 →
        ls1.map listener.spec = ls.map listener.spec ++ paths := by
  intro paths
  induction paths with
  | nil =>
    intro ls ls1 h
    simp only [listenPaths, Except.ok.injEq] at h
    simp [h]
  | cons path rest ih =>
    intro ls ls1 h
    simp only [listenPaths] at h
    split at h
    · exact absurd h (by simp)
    · split at h
      · rw [ih _ _ h]
        simp
      · exact absurd h (by simp)

theorem provision_specs (w : World) (s s1 : Starter) (env env1 : Env)
    (hs : s.listeners = []) (h : provision w s env = Except.ok (s1, env1)) :
    ∃ specs : List String, s.ports.map displaySpecOf = specs.map some ∧
      s1.listeners.map listener.spec = specs ++ s.paths := by
  unfold provision at h
  split at h
  · exact absurd h (by simp)
  · split at h
    · exact absurd h (by simp)
    · rename_i ls hports
      split at h
      · exact absurd h (by simp)
      · rename_i ls2 hpaths
        simp only [Except.ok.injEq, Prod.mk.injEq] at h
        obtain ⟨hs1, -⟩ := h
        subst hs1
        obtain ⟨specs, h1, h2⟩ := listenPorts_specs w _ _ _ hports
        refine ⟨specs, h1, ?_⟩
        have h3 := listenPaths_specs w _ _ _ hpaths
        simp only [h3, h2, hs, List.map_nil, List.nil_append]

/-- C6.  Whenever `StartWorker` makes an attempt with one listener per
configured port and path (which is what `Run` has provisioned), it leaves in
`SERVER_STARTER_PORT` the strings `spec_i=(i+3)` of the listeners `i = 0, 1,
...` in order, joined by `;` (so nothing follows the last one).  The listeners
`Run` provisions for a starter made by `NewStarter` are exactly that many and
their specs are the display specs of the configured ports, in order, followed
by the configured paths, in order.  With the single port `"8000"` the worker
of the first attempt sees `SERVER_STARTER_PORT` equal to `8000=3` and
`SERVER_STARTER_GENERATION` equal to `1`. -/
theorem C6_port_mapping :
    (∀ (s : Starter) (env : Env) (a : Attempt),
        s.listeners.length = s.ports.length + s.paths.length →
        Getenv (attempt s env a).env "SERVER_STARTER_PORT"
          = Join (s.listeners.enum.map portEntry) ";") ∧
    (∀ (w : World) (c : Config) (lookPathOk : Bool) (s s1 : Starter) (env env1 : Env),
        NewStarter (some c) lookPathOk = some s →
        provision w s env = Except.ok (s1, env1) →
        s1.listeners.length = s1.ports.length + s1.paths.length ∧
        ∃ specs : List String, c.Ports.map displaySpecOf = specs.map some ∧
          s1.listeners.map listener.spec = specs ++ c.Paths) ∧
    (Run okWorld starter8000 [] [launchOk 101] []).progress.map
        (fun r => r.eff.log.map (fun x => (x.envPort, x.envGeneration)))
      = some [("8000=3", "1")] := by
  refine ⟨attempt_envPort, ?_, by decide⟩
  intro w c lookPathOk s s1 env env1 hs hprov
  have hl := NewStarter_listeners _ _ _ hs
  obtain ⟨-, hpo, hpa, hlen⟩ := provision_spec w s s1 env env1 hprov
  obtain ⟨specs, h1, h2⟩ := provision_specs w s s1 env env1 hl hprov
  have hports : s.ports = c.Ports ∧ s.paths = c.Paths := by
    unfold NewStarter at hs
    simp only at hs
    split at hs
    · exact absurd hs (by simp)
    · split at hs
      · exact absurd hs (by simp)
      · simp only [Option.some.injEq] at hs
        rw [← hs]
        exact ⟨rfl, rfl⟩
  refine ⟨?_, specs, ?_, ?_⟩
  · rw [hlen, hl, hpo, hpa]
    simp
  · rw [← hports.1]
    exact h1
  · rw [← hports.2]
    exact h2

/-- C6, an instance: a TCP listener with spec `8000` followed by a socket
path listener gives `8000=3;/tmp/app.sock=4`. -/
theorem C6_port_mapping_witness :
    Getenv (attempt
        { starter8000 with
            paths := ["/tmp/app.sock"]
            listeners := [{ kind := ListenerKind.TCPListener, spec := "8000" },
              { kind := ListenerKind.UnixListener, spec := "/tmp/app.sock" }] }
        [] (launchOk 101)).env "SERVER_STARTER_PORT" = "8000=3;/tmp/app.sock=4" ∧
    ∃ s1 env1, provision okWorld starter8000 [] = Except.ok (s1, env1) ∧
      s1.listeners.length = s1.ports.length + s1.paths.length :=
  ⟨(C6_port_mapping.1
      { starter8000 with
          paths := ["/tmp/app.sock"]
          listeners := [{ kind := ListenerKind.TCPListener, spec := "8000" },
            { kind := ListenerKind.UnixListener, spec := "/tmp/app.sock" }] }
      [] (launchOk 101) (by decide)).trans (by decide),
    { starter8000 with
        listeners := [{ kind := ListenerKind.TCPListener, spec := "8000" }] },
    [("SERVER_STARTER_GENERATION", "0")],
    rfl,
    (C6_port_mapping.2.1 okWorld config8000 true starter8000
      { starter8000 with
          listeners := [{ kind := ListenerKind.TCPListener, spec := "8000" }] }
      [] [("SERVER_STARTER_GENERATION", "0")] (by decide) rfl).1⟩

/-! ## Port specifications -/

theorem digit_bound (c : Char) (h : c.isDigit = true) : 48 ≤ c.toNat ∧ c.toNat ≤ 57 := by
  simp only [Char.isDigit, Bool.and_eq_true, decide_eq_true_eq, ge_iff_le] at h
  obtain ⟨h1, h2⟩ := h
  rw [UInt32.le_def, BitVec.le_def] at h1 h2
  simp only [Char.toNat, UInt32.toNat]
  exact ⟨h1, h2⟩

theorem digit_ne (c : Char) (h : c.isDigit = true) : c ≠ ':' ∧ c ≠ '+' ∧ c ≠ '-' := by
  refine ⟨?_, ?_, ?_⟩ <;> (intro hc; subst hc; exact absurd h (by decide))

theorem IndexByte_colon (cs : List Char) :
    IndexByte cs ':' =
      if cs.dropWhile (fun c => !decide (c = ':')) = [] then -1
      else ((cs.takeWhile (fun c => !decide (c = ':'))).length : Int) := by
  induction cs with
  | nil => simp [IndexByte]
  | cons c cs ih =>
    by_cases hc : c = ':'
    · simp [IndexByte, hc]
    · have hdw : (c :: cs).dropWhile (fun c => !decide (c = ':'))
          = cs.dropWhile (fun c => !decide (c = ':')) := by
        simp [List.dropWhile_cons, hc]
      have htw : (c :: cs).takeWhile (fun c => !decide (c = ':'))
          = c :: cs.takeWhile (fun c => !decide (c = ':')) := by
        simp [List.takeWhile_cons, hc]
      rw [hdw, htw]
      simp only [IndexByte, hc, if_false, ih]
      by_cases hd : cs.dropWhile (fun c => !decide (c = ':')) = []
      · simp only [hd, if_true]
        decide
      · simp only [hd, if_false, List.length_cons]
        have hnn : ¬ ((cs.takeWhile (fun c => !decide (c = ':'))).length : Int) < 0 := by omega
        simp only [hnn, if_false]
        push_cast
        rfl

theorem String_mk_data (s : String) : String.mk s.data = s := rfl

theorem parsePortSpec_split (addr : String) :
    parsePortSpec addr =
      match ParseInt (String.mk (portPartOf addr.data)) with
      | (_, some err) => ("", -1, some err)
      | (port, Option.none) => (String.mk (hostPartOf addr.data), port, Option.none) := by
  unfold parsePortSpec portPartOf hostPartOf
  rw [IndexByte_colon]
  have hsplit := List.takeWhile_append_dropWhile (fun c => !decide (c = ':')) addr.data
  cases hd : addr.data.dropWhile (fun c => !decide (c = ':')) with
  | nil =>
    have hneg : ((-1 : Int) < 0) := by decide
    simp only [if_true, hneg, String_mk_data]
  | cons c rest =>
    rw [hd] at hsplit
    generalize addr.data.takeWhile (fun c => !decide (c = ':')) = t at hsplit
    have hnn : ¬ ((t.length : Int) < 0) := by omega
    have hn1 : ((t.length : Int) + 1).toNat = t.length + 1 := by omega
    simp only [reduceCtorEq, if_false, hnn, hn1, Int.toNat_ofNat]
    rw [← hsplit]
    have hdrop : (t ++ c :: rest).drop (t.length + 1) = rest := by
      rw [List.drop_append_eq_append_drop]
      simp
    have htake : (t ++ c :: rest).take t.length = t := by simp
    rw [hdrop, htake]

theorem decimalFrom_cons (n : Nat) (c : Char) (cs : List Char) :
    decimalFrom n (c :: cs) = decimalFrom (n * 10 + (c.toNat - 48)) cs := rfl

theorem le_decimalFrom : ∀ (ds : List Char) (n : Nat), n ≤ decimalFrom n ds := by
  intro ds
  induction ds with
  | nil => intro n; exact Nat.le_refl n
  | cons c cs ih =>
    intro n
    rw [decimalFrom_cons]
    have := ih (n * 10 + (c.toNat - 48))
    omega

theorem maxUint64_eq : maxUint64 = 18446744073709551615 := by
  norm_num [maxUint64]

theorem parseUintLoop_digits :
    ∀ (ds : List Char) (n : Nat), (∀ c, c ∈ ds → c.isDigit = true) →
      decimalFrom n ds < 2 ^ 64 → parseUintLoop ds n = (decimalFrom n ds, Option.none) := by
  intro ds
  induction ds with
  | nil => intro n _ _; rfl
  | cons c cs ih =>
    intro n hd hv
    have hc : c.isDigit = true := hd c (List.mem_cons_self c cs)
    rw [decimalFrom_cons] at hv ⊢
    have hle := le_decimalFrom cs (n * 10 + (c.toNat - 48))
    have hlt : n * 10 + (c.toNat - 48) < 18446744073709551616 := by
      norm_num at hv
      omega
    have h1 : ¬ n ≥ maxUint64 / 10 + 1 := by
      rw [maxUint64_eq]
      omega
    have hmod : (n * 10 + (c.toNat - 48)) % 2 ^ 64 = n * 10 + (c.toNat - 48) := by
      apply Nat.mod_eq_of_lt
      norm_num
      exact hlt
    have h2 : ¬ (n * 10 + (c.toNat - 48) < n * 10 ∨ n * 10 + (c.toNat - 48) > maxUint64) := by
      rw [maxUint64_eq]
      omega
    simp only [parseUintLoop, hc, if_true, h1, if_false, hmod, h2]
    exact ih _ (fun x hx => hd x (List.mem_cons_of_mem c hx)) hv

theorem parseUintLoop_ok :
    ∀ (ds : List Char) (n v : Nat), parseUintLoop ds n = (v, Option.none) →
      ∀ c, c ∈ ds → c.isDigit = true := by
  intro ds
  induction ds with
  | nil => intro n v _ c hc; exact absurd hc (List.not_mem_nil c)
  | cons d cs ih =>
    intro n v h c hc
    by_cases hd : d.isDigit = true
    · simp only [parseUintLoop, hd, if_true] at h
      split at h
      · exact absurd h (by simp)
      · split at h
        · exact absurd h (by simp)
        · rcases List.mem_cons.mp hc with rfl | hc
          · exact hd
          · exact ih _ _ h c hc
    · simp [parseUintLoop, hd] at h

theorem parseUintLoop_range :
    ∀ (ds : List Char) (n v : Nat), parseUintLoop ds n = (v, some NumError.ErrRange) →
      v = maxUint64 := by
  intro ds
  induction ds with
  | nil => intro n v h; simp [parseUintLoop] at h
  | cons d cs ih =>
    intro n v h
    by_cases hd : d.isDigit = true
    · simp only [parseUintLoop, hd, if_true] at h
      split at h
      · simp only [Prod.mk.injEq] at h
        exact h.1.symm
      · split at h
        · simp only [Prod.mk.injEq] at h
          exact h.1.symm
        · exact ih _ _ h
    · simp [parseUintLoop, hd] at h

theorem isDecimalDigits_iff (ds : List Char) :
    isDecimalDigits ds = true ↔ ds ≠ [] ∧ ∀ c, c ∈ ds → c.isDigit = true := by
  cases ds <;> simp [isDecimalDigits]

theorem ParseUint_ok (body : List Char) (v : Nat) (h : ParseUint body = (v, Option.none)) :
    isDecimalDigits body = true := by
  rw [isDecimalDigits_iff]
  cases body with
  | nil => simp [ParseUint] at h
  | cons c cs =>
    refine ⟨by simp, ?_⟩
    simp only [ParseUint] at h
    exact parseUintLoop_ok _ _ _ h

theorem ParseUint_range (body : List Char) (v : Nat)
    (h : ParseUint body = (v, some NumError.ErrRange)) : v = maxUint64 := by
  cases body with
  | nil => simp [ParseUint] at h
  | cons c cs =>
    simp only [ParseUint] at h
    exact parseUintLoop_range _ _ _ h

theorem ParseUint_digits (ds : List Char) (h : isDecimalDigits ds = true)
    (hv : decimalValue ds < 2 ^ 64) : ParseUint ds = (decimalValue ds, Option.none) := by
  obtain ⟨hne, hd⟩ := (isDecimalDigits_iff ds).mp h
  cases ds with
  | nil => exact absurd rfl hne
  | cons c cs =>
    simp only [ParseUint]
    exact parseUintLoop_digits _ 0 hd hv

theorem wrapInt64_small (n : Nat) (h : n < 2 ^ 63) : wrapInt64 (n : Int) = (n : Int) := by
  unfold wrapInt64
  norm_num at h ⊢
  omega

theorem ParseInt_digits (ds : List Char) (h : isDecimalDigits ds = true)
    (hv : decimalValue ds < 2 ^ 63) :
    ParseInt (String.mk ds) = ((decimalValue ds : Int), Option.none) := by
  obtain ⟨hne, hd⟩ := (isDecimalDigits_iff ds).mp h
  have hu := ParseUint_digits ds h (by
    have : (2 : Nat) ^ 63 < 2 ^ 64 := by norm_num
    omega)
  cases ds with
  | nil => exact absurd rfl hne
  | cons c cs =>
    obtain ⟨-, hplus, hminus⟩ := digit_ne c (hd c (List.mem_cons_self c cs))
    have hcut : ¬ decimalValue (c :: cs) ≥ 2 ^ 63 := by omega
    simp only [ParseInt, hplus, hminus, if_false, hu, decide_False, reduceCtorEq,
      Bool.not_false, true_and, hcut, Bool.false_eq_true, false_and,
      wrapInt64_small _ hv]

theorem ParseInt_error (s : String) (h : isBase10Integer s.data = false) :
    ∃ v e, ParseInt s = (v, some e) := by
  unfold ParseInt
  cases hs : s.data with
  | nil => exact ⟨0, NumError.ErrSyntax, rfl⟩
  | cons c cs =>
    rw [hs] at h
    simp only
    generalize hbody : (if c = '+' then cs else if c = '-' then cs else c :: cs) = body
    cases hpu : ParseUint body with
    | mk un err =>
      cases err with
      | none =>
        exfalso
        have hdig := ParseUint_ok body un hpu
        by_cases hp : c = '+'
        · simp only [hp, if_true] at hbody
          subst hbody
          simp [isBase10Integer, hp, hdig] at h
        · by_cases hm : c = '-'
          · have hne : ¬ ('-' : Char) = '+' := by decide
            simp only [hm, hne, if_false, if_true] at hbody
            subst hbody
            simp [isBase10Integer, hm, hdig] at h
          · simp only [hp, hm, if_false] at hbody
            subst hbody
            simp [isBase10Integer, hp, hm, hdig] at h
      | some e =>
        cases e with
        | ErrSyntax => exact ⟨0, NumError.ErrSyntax, by simp⟩
        | ErrRange =>
          have hun := ParseUint_range body un hpu
          rw [maxUint64_eq] at hun
          subst hun
          by_cases hm : c = '-'
          · refine ⟨-((2 ^ 63 : Nat) : Int), NumError.ErrRange, ?_⟩
            simp [hm]
          · refine ⟨((2 ^ 63 : Nat) : Int) - 1, NumError.ErrRange, ?_⟩
            simp [hm]

theorem parseUintLoop_digits_total :
    ∀ (ds : List Char) (n : Nat), (∀ c, c ∈ ds → c.isDigit = true) → n < 2 ^ 64 →
      parseUintLoop ds n =
        if decimalFrom n ds < 2 ^ 64 then (decimalFrom n ds, Option.none)
        else (maxUint64, some NumError.ErrRange) := by
  intro ds
  induction ds with
  | nil =>
    intro n _ hn
    have hnil : decimalFrom n [] = n := rfl
    rw [hnil, if_pos hn]
    rfl
  | cons c cs ih =>
    intro n hd hn
    have hc : c.isDigit = true := hd c (List.mem_cons_self c cs)
    obtain ⟨hc1, hc2⟩ := digit_bound c hc
    rw [decimalFrom_cons]
    have hle := le_decimalFrom cs (n * 10 + (c.toNat - 48))
    norm_num at hn
    by_cases hlt : n * 10 + (c.toNat - 48) < 18446744073709551616
    · have h1 : ¬ n ≥ maxUint64 / 10 + 1 := by
        rw [maxUint64_eq]
        omega
      have hmod : (n * 10 + (c.toNat - 48)) % 2 ^ 64 = n * 10 + (c.toNat - 48) := by
        apply Nat.mod_eq_of_lt
        norm_num
        exact hlt
      have h2 : ¬ (n * 10 + (c.toNat - 48) < n * 10
          ∨ n * 10 + (c.toNat - 48) > maxUint64) := by
        rw [maxUint64_eq]
        omega
      simp only [parseUintLoop, hc, if_true, h1, if_false, hmod, h2]
      exact ih _ (fun x hx => hd x (List.mem_cons_of_mem c hx)) (by norm_num; exact hlt)
    · have hbig : ¬ decimalFrom (n * 10 + (c.toNat - 48)) cs < 2 ^ 64 := by
        norm_num
        omega
      simp only [hbig, if_false, parseUintLoop, hc, if_true]
      by_cases h1 : n ≥ maxUint64 / 10 + 1
      · simp only [h1, if_true]
      · simp only [h1, if_false]
        have h2 : (n * 10 + (c.toNat - 48)) % 2 ^ 64 < n * 10
            ∨ (n * 10 + (c.toNat - 48)) % 2 ^ 64 > maxUint64 := by
          left
          rw [maxUint64_eq] at h1
          norm_num
          omega
        simp only [h2, if_true]

theorem ParseInt_digits_range (ds : List Char) (h : isDecimalDigits ds = true)
    (hv : 2 ^ 63 ≤ decimalValue ds) :
    ParseInt (String.mk ds) = (((2 ^ 63 : Nat) : Int) - 1, some NumError.ErrRange) := by
  obtain ⟨hne, hd⟩ := (isDecimalDigits_iff ds).mp h
  cases ds with
  | nil => exact absurd rfl hne
  | cons c cs =>
    obtain ⟨-, hplus, hminus⟩ := digit_ne c (hd c (List.mem_cons_self c cs))
    have hloop := parseUintLoop_digits_total (c :: cs) 0 hd (by norm_num)
    by_cases hlt : decimalFrom 0 (c :: cs) < 2 ^ 64
    · rw [if_pos hlt] at hloop
      have hcut : 9223372036854775808 ≤ decimalFrom 0 (c :: cs) := by
        have := hv
        norm_num [decimalValue] at this
        exact this
      simp [ParseInt, hplus, hminus, ParseUint, hloop, hcut]
    · rw [if_neg hlt] at hloop
      simp [ParseInt, hplus, hminus, ParseUint, hloop, maxUint64_eq]

theorem portPart_no_colon (ds : List Char) (h : ∀ c, c ∈ ds → c ≠ ':') :
    portPartOf ds = ds ∧ hostPartOf ds = [] := by
  have hdw : ds.dropWhile (fun c => !decide (c = ':')) = [] := by
    rw [List.dropWhile_eq_nil_iff]
    intro c hc
    simp [h c hc]
  simp [portPartOf, hostPartOf, hdw]

theorem dropWhile_colon (ds : List Char) :
    ∀ host : List Char, (∀ c, c ∈ host → c ≠ ':') →
      (host ++ ':' :: ds).dropWhile (fun c => !decide (c = ':')) = ':' :: ds := by
  intro host
  induction host with
  | nil => intro _; simp [List.dropWhile_cons]
  | cons a as ih =>
    intro h
    have ha : a ≠ ':' := h a (List.mem_cons_self a as)
    rw [List.cons_append, List.dropWhile_cons_of_pos (by simp [ha])]
    exact ih (fun c hc => h c (List.mem_cons_of_mem a hc))

theorem takeWhile_colon (ds : List Char) :
    ∀ host : List Char, (∀ c, c ∈ host → c ≠ ':') →
      (host ++ ':' :: ds).takeWhile (fun c => !decide (c = ':')) = host := by
  intro host
  induction host with
  | nil => intro _; simp [List.takeWhile_cons]
  | cons a as ih =>
    intro h
    have ha : a ≠ ':' := h a (List.mem_cons_self a as)
    rw [List.cons_append, List.takeWhile_cons_of_pos (by simp [ha])]
    rw [ih (fun c hc => h c (List.mem_cons_of_mem a hc))]

theorem portPart_colon (host ds : List Char) (h : ∀ c, c ∈ host → c ≠ ':') :
    portPartOf (host ++ ':' :: ds) = ds ∧ hostPartOf (host ++ ':' :: ds) = host := by
  simp [portPartOf, hostPartOf, dropWhile_colon ds host h, takeWhile_colon ds host h]

/-- C7 (as amended).  `parsePortSpec` splits its argument at the first `':'`
and parses the port part (the text after it, or everything when there is no
`':'`) with `strconv.ParseInt(_, 10, 64)`.  A string of decimal digits denoting
`n < 2^63` gives address `""` and port `n`; `h:d` with `h` free of `':'` and
`d` decimal digits denoting `n < 2^63` gives address `h` and port `n`; decimal
digits denoting `n ≥ 2^63` give a range error in both shapes; and a port part
that is not a base-10 integer gives an error.  The display spec of `Run` is
the decimal port for an empty address and `address:port` otherwise:
`8000` for `"8000"` and `127.0.0.1:9000` for `"127.0.0.1:9000"`. -/
theorem C7_parsePortSpec :
    (∀ addr : String, parsePortSpec addr =
      match ParseInt (String.mk (portPartOf addr.data)) with
      | (_, some err) => ("", -1, some err)
      | (port, Option.none) => (String.mk (hostPartOf addr.data), port, Option.none)) ∧
    (∀ ds : List Char, isDecimalDigits ds = true → decimalValue ds < 2 ^ 63 →
      parsePortSpec (String.mk ds) = ("", (decimalValue ds : Int), Option.none)) ∧
    (∀ host ds : List Char, (∀ c, c ∈ host → c ≠ ':') → isDecimalDigits ds = true →
      decimalValue ds < 2 ^ 63 →
      parsePortSpec (String.mk (host ++ ':' :: ds))
        = (String.mk host, (decimalValue ds : Int), Option.none)) ∧
    (∀ host ds : List Char, (∀ c, c ∈ host → c ≠ ':') → isDecimalDigits ds = true →
      2 ^ 63 ≤ decimalValue ds →
      parsePortSpec (String.mk ds) = ("", -1, some NumError.ErrRange) ∧
      parsePortSpec (String.mk (host ++ ':' :: ds)) = ("", -1, some NumError.ErrRange)) ∧
    (∀ addr : String, isBase10Integer (portPartOf addr.data) = false →
      ∃ e, parsePortSpec addr = ("", -1, some e)) ∧
    (∀ port : Int, portDisplaySpec "" port = fmtInt port) ∧
    (∀ (host : String) (port : Int), host ≠ "" →
      portDisplaySpec host port = host ++ ":" ++ fmtInt port) ∧
    parsePortSpec "8000" = ("", 8000, Option.none) ∧
    displaySpecOf "8000" = some "8000" ∧
    displaySpecOf "127.0.0.1:9000" = some "127.0.0.1:9000" := by
  have hdigits_no_colon : ∀ ds : List Char, isDecimalDigits ds = true →
      ∀ c, c ∈ ds → c ≠ ':' := by
    intro ds hds c hc
    exact (digit_ne c (((isDecimalDigits_iff ds).mp hds).2 c hc)).1
  refine ⟨parsePortSpec_split, ?_, ?_, ?_, ?_, ?_, ?_, by decide, by decide, by decide⟩
  · intro ds hds hv
    rw [parsePortSpec_split]
    obtain ⟨h1, h2⟩ := portPart_no_colon ds (hdigits_no_colon ds hds)
    simp only [h1, h2, ParseInt_digits ds hds hv]
  · intro host ds hh hds hv
    rw [parsePortSpec_split]
    obtain ⟨h1, h2⟩ := portPart_colon host ds hh
    simp only [h1, h2, ParseInt_digits ds hds hv]
  · intro host ds hh hds hv
    constructor
    · rw [parsePortSpec_split]
      obtain ⟨h1, h2⟩ := portPart_no_colon ds (hdigits_no_colon ds hds)
      simp only [h1, h2, ParseInt_digits_range ds hds hv]
    · rw [parsePortSpec_split]
      obtain ⟨h1, h2⟩ := portPart_colon host ds hh
      simp only [h1, h2, ParseInt_digits_range ds hds hv]
  · intro addr h
    rw [parsePortSpec_split]
    obtain ⟨v, e, he⟩ := ParseInt_error (String.mk (portPartOf addr.data)) h
    exact ⟨e, by rw [he]⟩
  · intro port
    simp [portDisplaySpec]
  · intro host port hne
    simp [portDisplaySpec, hne]

/-- C7, instances of the amended statement: `"443"`, `"localhost:8080"`, a
port beyond the 64-bit range, and a non-numeric port. -/
theorem C7_parsePortSpec_witness :
    parsePortSpec "443" = ("", 443, Option.none) ∧
    parsePortSpec "localhost:8080" = ("localhost", 8080, Option.none) ∧
    parsePortSpec "localhost:99999999999999999999" = ("", -1, some NumError.ErrRange) ∧
    (∃ e, parsePortSpec "localhost:http" = ("", -1, some e)) ∧
    portDisplaySpec "localhost" 8080 = "localhost:8080" :=
  ⟨C7_parsePortSpec.2.1 "443".data (by decide) (by decide),
    C7_parsePortSpec.2.2.1 "localhost".data "8080".data (by decide) (by decide) (by decide),
    (C7_parsePortSpec.2.2.2.1 "localhost".data "99999999999999999999".data (by decide)
      (by decide) (by decide)).2,
    C7_parsePortSpec.2.2.2.2.1 "localhost:http" (by decide),
    C7_parsePortSpec.2.2.2.2.2.2.1 "localhost" 8080 (by decide)⟩

set_option maxRecDepth 8192 in
/-- C7 as stated fails for digit strings that denote a number beyond the
64-bit range: `"9223372036854775808"` is a colon-free string of decimal digits
denoting `2^63`, and `parsePortSpec` returns a range error for it instead of
address `""` and port `2^63`. -/
theorem C7_digits_beyond_int64_rejected :
    isDecimalDigits "9223372036854775808".data = true ∧
    decimalValue "9223372036854775808".data = 2 ^ 63 ∧
    parsePortSpec "9223372036854775808" = ("", -1, some NumError.ErrRange) ∧
    parsePortSpec "9223372036854775808" ≠ ("", ((2 ^ 63 : Nat) : Int), Option.none) := by
  decide

/-! ## The signal name table -/

/-- C8: the code at the failing input.  `init` fills a local map that shadows
the package-level `niceNameToSigs`, which stays `nil`; so `SigFromName` returns
`nil` for every name on every platform, in particular for the names `signame`
gives: `SigFromName(signame(SIGTERM))` is `nil`, not SIGTERM.  The local map
that `init` builds and drops does send `TERM` back to SIGTERM. -/
theorem C8_SigFromName_always_nil :
    (∀ (addPlatformDependentNiceSigNames : Table Signal String → Table Signal String)
        (n : String),
      SigFromName (init addPlatformDependentNiceSigNames Globals.zero) n = Option.none) ∧
    signame (init id Globals.zero) (some SIGTERM) = "TERM" ∧
    signame (init id Globals.zero) (some SIGHUP) = "HUP" ∧
    SigFromName (init id Globals.zero) (signame (init id Globals.zero) (some SIGTERM))
      = Option.none ∧
    SigFromName (init id Globals.zero) (signame (init id Globals.zero) (some SIGTERM))
      ≠ some SIGTERM ∧
    (invertNames (makeNiceSigNames id) []).get? "TERM" = some SIGTERM := by
  refine ⟨?_, by decide, by decide, by decide, by decide, by decide⟩
  intro f n
  simp [SigFromName, init, Globals.zero, Table.get?]

/-! ## The kill-old delay -/

theorem wrapInt64_id (x : Int) (h1 : -(2 ^ 63) ≤ x) (h2 : x < 2 ^ 63) : wrapInt64 x = x := by
  unfold wrapInt64
  norm_num at h1 h2 ⊢
  omega

theorem ParseInt_integer (cs : List Char) (h : isBase10Integer cs = true)
    (h1 : -(2 ^ 63) < intValue cs) (h2 : intValue cs < 2 ^ 63) :
    ParseInt (String.mk cs) = (intValue cs, Option.none) := by
  cases cs with
  | nil => simp [isBase10Integer] at h
  | cons c ds =>
    by_cases hm : c = '-'
    · subst hm
      have hds : isDecimalDigits ds = true := by simpa [isBase10Integer] using h
      have hval : intValue ('-' :: ds) = -(decimalValue ds : Int) := by simp [intValue]
      rw [hval] at h1 h2 ⊢
      have hv : decimalValue ds < 2 ^ 63 := by
        norm_num at h1 ⊢
        omega
      have hu := ParseUint_digits ds hds (by
        have : (2 : Nat) ^ 63 < 2 ^ 64 := by norm_num
        omega)
      have hne : ¬ ('-' : Char) = '+' := by decide
      have hcut : ¬ decimalValue ds > 2 ^ 63 := by omega
      have hw : wrapInt64 (-wrapInt64 (decimalValue ds : Int)) = -(decimalValue ds : Int) := by
        rw [wrapInt64_small _ hv]
        apply wrapInt64_id
        · norm_num at hv ⊢
          omega
        · norm_num at hv ⊢
          omega
      simp only [ParseInt, hne, if_false, if_true, hu, decide_True, reduceCtorEq,
        Bool.not_true, Bool.false_eq_true, false_and, true_and, hcut, hw]
    · by_cases hp : c = '+'
      · subst hp
        have hds : isDecimalDigits ds = true := by simpa [isBase10Integer] using h
        have hval : intValue ('+' :: ds) = (decimalValue ds : Int) := by simp [intValue]
        rw [hval] at h1 h2 ⊢
        have hv : decimalValue ds < 2 ^ 63 := by
          norm_num at h2 ⊢
          omega
        have hu := ParseUint_digits ds hds (by
          have : (2 : Nat) ^ 63 < 2 ^ 64 := by norm_num
          omega)
        have hcut : ¬ decimalValue ds ≥ 2 ^ 63 := by omega
        simp only [ParseInt, hm, if_true, hu, decide_False, reduceCtorEq, if_false,
          Bool.not_false, true_and, hcut, Bool.false_eq_true, false_and,
          wrapInt64_small _ hv]
      · have hds : isDecimalDigits (c :: ds) = true := by
          simpa [isBase10Integer, hm, hp] using h
        have hval : intValue (c :: ds) = (decimalValue (c :: ds) : Int) := by
          simp [intValue, hm, hp]
        rw [hval] at h2 ⊢
        have hv : decimalValue (c :: ds) < 2 ^ 63 := by
          norm_num at h2 ⊢
          omega
        exact ParseInt_digits (c :: ds) hds hv


theorem Getenv_of_get? (env : Env) (k v : String) (h : env.get? k = some v) :
    Getenv env k = v := by
  simp [Getenv, h]

theorem Getenv_of_unset (env : Env) (k : String) (h : env.get? k = Option.none) :
    Getenv env k = "" := by
  simp [Getenv, h]

/-- What `getKillOldDelay` computes: `d` seconds when `KILL_OLD_DELAY` is set
to a base-10 integer `d` other than 0 (with `d` seconds representable as a
`time.Duration`), whatever `ENABLE_AUTO_RESTART` is; when `KILL_OLD_DELAY` is
set to 0, and likewise when it is not set, 5 seconds if `ENABLE_AUTO_RESTART`
parses as true and 0 seconds otherwise. -/
theorem getKillOldDelay_resolution :
    (∀ (env : Env) (cs : List Char),
      env.get? "KILL_OLD_DELAY" = some (String.mk cs) → isBase10Integer cs = true →
      intValue cs ≠ 0 → -(2 ^ 63) ≤ intValue cs * Second → intValue cs * Second < 2 ^ 63 →
      getKillOldDelay env = intValue cs * Second) ∧
    (∀ (env : Env) (cs : List Char),
      env.get? "KILL_OLD_DELAY" = some (String.mk cs) → isBase10Integer cs = true →
      intValue cs = 0 →
      getKillOldDelay env
        = if (ParseBool (Getenv env "ENABLE_AUTO_RESTART")).1 = true then 5 * Second else 0) ∧
    (∀ env : Env, env.get? "KILL_OLD_DELAY" = Option.none →
      getKillOldDelay env
        = if (ParseBool (Getenv env "ENABLE_AUTO_RESTART")).1 = true then 5 * Second else 0) := by
  refine ⟨?_, ?_, ?_⟩
  · intro env cs hset hint hne hlo hhi
    have hget := Getenv_of_get? env _ _ hset
    have hparse := ParseInt_integer cs hint
      (by unfold Second at hlo; norm_num at hlo ⊢; omega)
      (by unfold Second at hhi; norm_num at hhi ⊢; omega)
    unfold getKillOldDelay
    simp only [hget, hparse, hne, and_false, if_false]
    exact wrapInt64_id _ hlo hhi
  · intro env cs hset hint hzero
    have hget := Getenv_of_get? env _ _ hset
    have hparse := ParseInt_integer cs hint (by rw [hzero]; norm_num) (by rw [hzero]; norm_num)
    unfold getKillOldDelay
    simp only [hget, hparse, hzero, and_true]
    split <;> decide
  · intro env hunset
    have hget := Getenv_of_unset env _ hunset
    have hparse : ParseInt "" = (0, some NumError.ErrSyntax) := rfl
    unfold getKillOldDelay
    simp only [hget, hparse, and_true]
    split <;> decide

/-- Instances of `getKillOldDelay_resolution`: 3 seconds wins over automatic
restart; an explicit 0 and an unset variable both give 5 seconds with automatic
restart on. -/
theorem getKillOldDelay_resolution_examples :
    getKillOldDelay [("KILL_OLD_DELAY", "3"), ("ENABLE_AUTO_RESTART", "true")] = 3 * Second ∧
    getKillOldDelay [("KILL_OLD_DELAY", "0"), ("ENABLE_AUTO_RESTART", "1")] = 5 * Second ∧
    getKillOldDelay [("ENABLE_AUTO_RESTART", "1")] = 5 * Second ∧
    getKillOldDelay [] = 0 :=
  ⟨getKillOldDelay_resolution.1 [("KILL_OLD_DELAY", "3"), ("ENABLE_AUTO_RESTART", "true")] "3".data
      (by decide) (by decide) (by decide) (by decide) (by decide),
    (getKillOldDelay_resolution.2.1 [("KILL_OLD_DELAY", "0"), ("ENABLE_AUTO_RESTART", "1")] "0".data
      (by decide) (by decide) (by decide)).trans (by decide),
    (getKillOldDelay_resolution.2.2 [("ENABLE_AUTO_RESTART", "1")] (by decide)).trans (by decide),
    (getKillOldDelay_resolution.2.2 [] (by decide)).trans (by decide)⟩

/-- C9: the code at the failing input.  With `KILL_OLD_DELAY` set to the
decimal integer 0 and `ENABLE_AUTO_RESTART=true`, `getKillOldDelay` returns 5
seconds, not the 0 seconds that were set: `os.Getenv` and the ignored parse
error make an explicit 0 look like an unset variable, and the default for
automatic restart is put in its place. -/
theorem C9_explicit_zero_gives_five_seconds :
    isBase10Integer "0".data = true ∧ intValue "0".data = 0 ∧
    (ParseBool "true").1 = true ∧
    getKillOldDelay [("KILL_OLD_DELAY", "0"), ("ENABLE_AUTO_RESTART", "true")] = 5 * Second ∧
    getKillOldDelay [("KILL_OLD_DELAY", "0"), ("ENABLE_AUTO_RESTART", "true")] ≠ 0 * Second := by
  decide

/-! ## Signals observed during the grace period -/

theorem filterMap_get?_range (l : List Signal) :
    (List.range l.length).filterMap (fun i => l.get? i) = l := by
  induction l using List.reverseRecOn with
  | nil => rfl
  | append_singleton l a ih =>
    rw [List.length_append, List.length_singleton, List.range_succ, List.filterMap_append]
    have h1 : (List.range l.length).filterMap (fun i => (l ++ [a]).get? i)
        = (List.range l.length).filterMap (fun i => l.get? i) := by
      apply List.filterMap_congr
      intro i hi
      have hlt : i < l.length := List.mem_range.mp hi
      simp [List.get?_eq_getElem?, List.getElem?_append_left hlt]
    rw [h1, ih]
    simp [List.get?_eq_getElem?]

theorem resend_eq (sigs : List Signal) (lag : List Nat) : resend sigs lag = sigs := by
  unfold resend
  exact filterMap_get?_range sigs

/-! ## The grace period -/

theorem graceWait_no_timer :
    ∀ (grace : List GraceEvent) (sigs : List Signal), GraceEvent.timer ∉ grace →
      graceWait grace sigs = Option.none := by
  intro grace
  induction grace with
  | nil => intro sigs _; rfl
  | cons ev rest ih =>
    intro sigs h
    cases ev with
    | timer => exact absurd (List.mem_cons_self _ _) h
    | signal sig =>
      simp only [graceWait]
      exact ih _ (fun hmem => h (List.mem_cons_of_mem _ hmem))

theorem graceWait_until_timer :
    ∀ (pre post : List GraceEvent) (sigs : List Signal), GraceEvent.timer ∉ pre →
      graceWait (pre ++ GraceEvent.timer :: post) sigs = some (sigs ++ signalsOf pre, post) := by
  intro pre
  induction pre with
  | nil =>
    intro post sigs _
    simp [graceWait, signalsOf]
  | cons ev rest ih =>
    intro post sigs h
    cases ev with
    | timer => exact absurd (List.mem_cons_self _ _) h
    | signal sig =>
      have hstep : graceWait (GraceEvent.signal sig :: rest ++ GraceEvent.timer :: post) sigs
          = graceWait (rest ++ GraceEvent.timer :: post) (sigs ++ [sig]) := rfl
      rw [hstep, ih post _ (fun hmem => h (List.mem_cons_of_mem _ hmem))]
      simp [signalsOf]

theorem gotSig_foldl (sigs : List Signal) :
    ∀ b : Bool, sigs.foldl (fun gotSig sig => if sig ≠ SIGHUP then true else gotSig) b
      = (b || sigs.any (fun sig => decide (sig ≠ SIGHUP))) := by
  induction sigs with
  | nil => intro b; simp
  | cons sig rest ih =>
    intro b
    simp only [List.foldl_cons, ih, List.any_cons]
    by_cases h : sig = SIGHUP
    · simp [h]
    · simp [h]

theorem gotSigAfter_true (sigs : List Signal) (h : ∃ sig, sig ∈ sigs ∧ sig ≠ SIGHUP) :
    gotSigAfter sigs = true := by
  unfold gotSigAfter
  rw [gotSig_foldl]
  obtain ⟨sig, hmem, hne⟩ := h
  simp only [Bool.false_or, List.any_eq_true, decide_eq_true_eq]
  exact ⟨sig, hmem, hne⟩

theorem gotSigAfter_false (sigs : List Signal) (h : ∀ sig, sig ∈ sigs → sig = SIGHUP) :
    gotSigAfter sigs = false := by
  unfold gotSigAfter
  rw [gotSig_foldl]
  simp only [Bool.false_or, List.any_eq_false, decide_eq_true_eq, ne_eq, Decidable.not_not]
  exact h

theorem attempt_started_verdict (s : Starter) (env : Env) (pid : Pid)
    (grace : List GraceEvent) (findErr : Bool) (lag : List Nat)
    (hfit : s.listeners.length ≤ s.ports.length + s.paths.length) :
    (attempt s env (Attempt.started pid grace findErr lag)).verdict =
      match graceWait grace [] with
      | Option.none => Verdict.waiting
      | some (sigs, _) =>
        if gotSigAfter sigs = true ∨ ¬ findErr = true then
          Verdict.returned (if findErr = true then Option.none else some pid)
        else Verdict.retry := by
  obtain ⟨ports, hports⟩ := fillPorts_isSome s.listeners 0
    (List.replicate (s.ports.length + s.paths.length) "") (by simpa using hfit)
  unfold attempt
  rw [hports]
  simp only
  split
  · rfl
  · split <;> rfl


theorem StartWorker_returns_at (s : Starter) (env : Env) (a : Attempt) (more : List Attempt)
    (p : Option Pid) (h : (attempt s env a).verdict = Verdict.returned p) :
    (StartWorker s env (a :: more)).verdict = Verdict.returned p ∧
    (StartWorker s env (a :: more)).rest = more := by
  simp [StartWorker, h]

/-- C11 (as amended).  After a successful process creation the wait of
`StartWorker` lasts until the timer fires, whatever signals arrive: as long as
the events received hold no timer event the launcher is still waiting, also
after a signal other than SIGHUP, and the wait ends at the first timer event
with every signal before it recorded.  Once the timer has fired: if some
recorded signal is not SIGHUP, the attempt is accepted and `StartWorker`
returns at once, whether or not the pid lookup succeeds (the handle returned
is the one the lookup gave); if every recorded signal is SIGHUP (or there is
none), the outcome depends on the pid lookup alone: return on success, retry
on failure. -/
theorem C11_grace_wait (s : Starter) (env : Env) (pid : Pid) (pre post : List GraceEvent)
    (findErr : Bool) (lag : List Nat) (more : List Attempt)
    (hfit : s.listeners.length ≤ s.ports.length + s.paths.length)
    (hpre : GraceEvent.timer ∉ pre) :
    graceWait pre [] = Option.none ∧
    (attempt s env (Attempt.started pid pre findErr lag)).verdict = Verdict.waiting ∧
    graceWait (pre ++ GraceEvent.timer :: post) [] = some (signalsOf pre, post) ∧
    ((∃ sig, sig ∈ signalsOf pre ∧ sig ≠ SIGHUP) →
      (StartWorker s env
          (Attempt.started pid (pre ++ GraceEvent.timer :: post) findErr lag :: more)).verdict
        = Verdict.returned (if findErr = true then Option.none else some pid) ∧
      (StartWorker s env
          (Attempt.started pid (pre ++ GraceEvent.timer :: post) findErr lag :: more)).rest
        = more) ∧
    ((∀ sig, sig ∈ signalsOf pre → sig = SIGHUP) →
      (attempt s env
          (Attempt.started pid (pre ++ GraceEvent.timer :: post) findErr lag)).verdict
        = if findErr = true then Verdict.retry else Verdict.returned (some pid)) := by
  have hwait := graceWait_no_timer pre [] hpre
  have hend := graceWait_until_timer pre post [] hpre
  rw [List.nil_append] at hend
  refine ⟨hwait, ?_, hend, ?_, ?_⟩
  · rw [attempt_started_verdict s env pid pre findErr lag hfit, hwait]
  · intro hsig
    apply StartWorker_returns_at
    rw [attempt_started_verdict s env pid _ findErr lag hfit, hend]
    simp [gotSigAfter_true _ hsig]
  · intro hhup
    rw [attempt_started_verdict s env pid _ findErr lag hfit, hend]
    cases findErr <;> simp [gotSigAfter_false _ hhup]

/-- C11, instances of the amended statement: with SIGTERM before the timer the
attempt is accepted although the pid lookup fails; with only SIGHUP before the
timer and a failing pid lookup the attempt is retried; and with SIGTERM but no
timer event yet the launcher is still waiting. -/
theorem C11_grace_wait_witness :
    (attempt (loopAt 101 1 ∅).s [] (Attempt.started 102 [GraceEvent.signal SIGTERM] true
        [])).verdict = Verdict.waiting ∧
    (StartWorker (loopAt 101 1 ∅).s []
        [Attempt.started 102 [GraceEvent.signal SIGTERM, GraceEvent.timer] true []]).verdict
      = Verdict.returned Option.none ∧
    (attempt (loopAt 101 1 ∅).s []
        (Attempt.started 102 [GraceEvent.signal SIGHUP, GraceEvent.timer] true [])).verdict
      = Verdict.retry :=
  ⟨(C11_grace_wait (loopAt 101 1 ∅).s [] 102 [GraceEvent.signal SIGTERM] [] true [] []
      (by decide) (by decide)).2.1,
    ((C11_grace_wait (loopAt 101 1 ∅).s [] 102 [GraceEvent.signal SIGTERM] [] true [] []
      (by decide) (by decide)).2.2.2.1 ⟨SIGTERM, by decide, by decide⟩).1,
    (C11_grace_wait (loopAt 101 1 ∅).s [] 102 [GraceEvent.signal SIGHUP] [] true [] []
      (by decide) (by decide)).2.2.2.2 (by decide)⟩

/-- C11 as stated fails: a signal other than SIGHUP does not end the wait.
With SIGTERM received and the timer not yet fired, the launcher is still in
the `select` loop; and when SIGTERM, then SIGHUP, then the timer arrive, the
loop also takes the SIGHUP that follows the SIGTERM and leaves only at the
timer (the SIGINT after the timer is not taken by it). -/
theorem C11_sigterm_does_not_end_wait :
    graceWait [GraceEvent.signal SIGTERM] [] = Option.none ∧
    (attempt (loopAt 101 1 ∅).s [] (Attempt.started 102 [GraceEvent.signal SIGTERM] false
        [])).verdict = Verdict.waiting ∧
    graceWait [GraceEvent.signal SIGTERM, GraceEvent.signal SIGHUP, GraceEvent.timer,
        GraceEvent.signal SIGINT] []
      = some ([SIGTERM, SIGHUP], [GraceEvent.signal SIGINT]) ∧
    (attempt (loopAt 101 1 ∅).s []
        (Attempt.started 102
          [GraceEvent.signal SIGTERM, GraceEvent.signal SIGHUP, GraceEvent.timer] false
          [])).log.map AttemptRecord.observed = [[SIGTERM, SIGHUP]] := by
  decide

/-! ## The status file -/

theorem relaunch_status (st : Loop) (attempts : List Attempt) (events : List Event)
    (after : Loop → Effects) (hafter : ∀ st1, (after st1).status = []) :
    (relaunch st attempts events after).eff.status = [] := by
  unfold relaunch
  cases hv : (StartWorker st.s st.env attempts).verdict <;>
    simp [hv, Effects.append, hafter]

theorem step_status (w : World) (st : Loop) (attempts : List Attempt) (events : List Event)
    (ev : Event) : (step w st attempts events ev).eff.status = [] := by
  cases ev with
  | exit x =>
    cases hp : st.p with
    | none => simp [step, hp, Effects.empty]
    | some pid =>
      by_cases hx : pid = x
      · simp only [step, hp, hx, if_true]
        exact relaunch_status st attempts events _ (fun _ => rfl)
      · simp [step, hp, hx, Effects.empty]
  | signal sig =>
    by_cases hhup : sig = SIGHUP
    · by_cases hlen : len st.oldWorkers = 0
      · cases hp : st.p with
        | none => simp [step, hhup, hlen, spawnNew, hp, Effects.empty]
        | some pid =>
          simp only [step, hhup, hlen, spawnNew, hp]
          simp only [gt_iff_lt, Nat.lt_irrefl, Nat.lt_one_iff, and_self, or_true, if_true,
            false_or, Nat.zero_lt_one, true_and]
          refine relaunch_status _ attempts events _ ?_
          intro st1
          split <;> rfl
      · simp [step, hhup, hlen, Effects.empty]
    · by_cases hterm : sig = SIGTERM
      · simp [step, hhup, hterm, Effects.empty, SIGTERM, SIGHUP]
      · simp [step, hhup, hterm, Effects.empty]

theorem eventLoop_status (w : World) :
    ∀ (events : List Event) (st : Loop) (attempts : List Attempt),
      (eventLoop w st attempts events).eff.status = [] := by
  intro events
  induction events with
  | nil =>
    intro st attempts
    simp [eventLoop, Effects.empty]
  | cons ev evs ih =>
    intro st attempts
    have hstep := step_status w st attempts evs ev
    simp only [eventLoop]
    generalize step w st attempts evs ev = r at hstep
    cases hs : r.status with
    | running =>
      simp only [Effects.append, hstep, ih, List.append_nil]
    | returned => exact hstep
    | launching => exact hstep
    | panicked => exact hstep

theorem Run_status (w : World) (s : Starter) (env : Env) (attempts : List Attempt)
    (events : List Event) :
    ((Run w s env attempts events).progress.map (fun r => r.eff.status)).getD [] = [] := by
  unfold Run
  split
  · rfl
  · rename_i s1 env1 hprov
    simp only
    have hfirst := relaunch_status
      { s := s1, env := setEnv w env1, p := Option.none, oldWorkers := ∅,
        sigReceived := Option.none, sigToSend := Option.none }
      attempts events (fun _ => Effects.empty) (fun _ => rfl)
    generalize relaunch
      { s := s1, env := setEnv w env1, p := Option.none, oldWorkers := ∅,
        sigReceived := Option.none, sigToSend := Option.none }
      attempts events (fun _ => Effects.empty) = first at hfirst
    have hloop := eventLoop_status w events { first.st with env := setEnv w first.st.env }
      first.attempts
    split
    · split <;> simp [Effects.append, hfirst, hloop]
    · simp [hfirst]

/-- C12: the code at the failing input.  No run of `Run` ever sends a value on
`statusCh`, whatever the configuration, the system's answers and the events:
so the reporter goroutine receives nothing and never writes the status file.
In the run shown, with the status file `/tmp/status` configured, worker 101 is
launched as current, a SIGHUP retires it and makes 102 current, and the exit
of 101 removes it from the retiring set: three changes of the registry, no
snapshot.  The reporter itself, given a map, would write one line per entry
(`1:101` and `2:102` here), and writes nothing when no path is configured. -/
theorem C12_no_snapshot_is_ever_sent :
    (∀ (w : World) (s : Starter) (env : Env) (attempts : List Attempt) (events : List Event),
      ((Run w s env attempts events).progress.map (fun r => r.eff.status)).getD [] = []) ∧
    (∀ (w : World) (s : Starter) (env : Env) (attempts : List Attempt) (events : List Event)
        (openOk : Bool),
      statusReporter s.statusFile openOk
        (((Run w s env attempts events).progress.map (fun r => r.eff.status)).getD []) = []) ∧
    (Run okWorld { starter8000 with statusFile := "/tmp/status" } []
        [launchOk 101, launchOk 102] [Event.signal SIGHUP, Event.exit 101]).progress.map
        (fun r => (r.status, r.st.p, r.st.oldWorkers.keys,
          r.eff.log.map AttemptRecord.pid, r.eff.status))
      = some (Status.running, some 102, [], [101, 102], []) ∧
    (eventLoop okWorld
        { loopAt 101 1 ∅ with s := { (loopAt 101 1 ∅).s with statusFile := "/tmp/status" } }
        [launchOk 102] [Event.signal SIGHUP]).st.oldWorkers.keys = [101] ∧
    reportStatus "/tmp/status" true [(1, 101), (2, 102)] = some "1:101\n2:102\n" ∧
    (∀ (openOk : Bool) (wmap : StatusMap), reportStatus "" openOk wmap = Option.none) := by
  refine ⟨Run_status, ?_, by rfl, by decide, by decide, ?_⟩
  · intro w s env attempts events openOk
    rw [Run_status]
    rfl
  · intro openOk wmap
    simp [reportStatus]

/-! ## The syslog priority -/

theorem parseTerms_notice_first (rest : List (List Char)) (p : Nat) :
    parseTerms ("NOTICE".data :: rest) p false = (LOG_NOTICE, Option.none) := by
  rfl

/-- C13: the code at the failing input.  For the other severities
`parsePriority` does what is claimed: `INFO,USER` and ` user , Info ` give
`LOG_INFO|LOG_USER`, `mail,daemon,crit` gives the OR of the three values, two
severities give `ErrMultipleLevels`, an unknown term gives an error.  But the
case `NOTICE` returns `LOG_NOTICE` on the spot: `NOTICE,USER` and `USER,NOTICE`
give `LOG_NOTICE` without `LOG_USER`, `NOTICE,INFO` (two severities) and
`NOTICE,BOGUS` (an unknown term) give `LOG_NOTICE` and no error; whatever
follows a first term `NOTICE` is never looked at. -/
theorem C13_notice_returns_early :
    parsePriority "INFO,USER" = (LOG_INFO ||| LOG_USER, Option.none) ∧
    parsePriority " user , Info " = (LOG_INFO ||| LOG_USER, Option.none) ∧
    parsePriority "mail,daemon,crit" = (LOG_CRIT ||| LOG_MAIL ||| LOG_DAEMON, Option.none) ∧
    parsePriority "ERR,USER,DEBUG" = (0, some PriorityError.ErrMultipleLevels) ∧
    parsePriority "INFO,BOGUS" = (0, some PriorityError.invalidPriority) ∧
    parsePriority "NOTICE,USER" = (LOG_NOTICE, Option.none) ∧
    LOG_NOTICE ≠ LOG_NOTICE ||| LOG_USER ∧
    parsePriority "USER,NOTICE" = (LOG_NOTICE, Option.none) ∧
    parsePriority "NOTICE,INFO" = (LOG_NOTICE, Option.none) ∧
    parsePriority "NOTICE,BOGUS" = (LOG_NOTICE, Option.none) ∧
    (∀ (rest : List (List Char)) (p : Nat),
      parseTerms ("NOTICE".data :: rest) p false = (LOG_NOTICE, Option.none)) := by
  refine ⟨by decide, by decide, by decide, by decide, by decide, by decide, by decide,
    by decide, by decide, by decide, parseTerms_notice_first⟩

/-! ## Re-queueing the signals of the grace period -/

theorem attempt_started_log (s : Starter) (env : Env) (pid : Pid) (grace : List GraceEvent)
    (findErr : Bool) (lag : List Nat) (sigs : List Signal) (rest : List GraceEvent)
    (hfit : s.listeners.length ≤ s.ports.length + s.paths.length)
    (hwait : graceWait grace [] = some (sigs, rest)) :
    ∃ r, (attempt s env (Attempt.started pid grace findErr lag)).log = [r] ∧
      r.observed = sigs ∧ r.requeued = resend sigs lag := by
  obtain ⟨ports, hports⟩ := fillPorts_isSome s.listeners 0
    (List.replicate (s.ports.length + s.paths.length) "") (by simpa using hfit)
  unfold attempt
  rw [hports]
  simp only [hwait]
  split <;> exact ⟨_, rfl, rfl, rfl⟩

/-- C10.  For every sequence of signals that `sigCh` delivers during one grace
period (the events before the timer fires), whatever the outcome of the pid
lookup and however late the re-sending goroutines get to run, the attempt
records exactly those signals as observed and starts one goroutine per observed
signal that sends this very signal to `sigCh`: every signal is re-queued as
many times as it was observed, so the re-queued signals are a rearrangement of
the observed ones and none is dropped or replaced. -/
theorem C10_requeue_preserves_signals (s : Starter) (env : Env) (pid : Pid)
    (pre post : List GraceEvent) (findErr : Bool) (lag : List Nat)
    (hfit : s.listeners.length ≤ s.ports.length + s.paths.length)
    (hpre : GraceEvent.timer ∉ pre) :
    ∃ r, (attempt s env
          (Attempt.started pid (pre ++ GraceEvent.timer :: post) findErr lag)).log = [r] ∧
      r.observed = signalsOf pre ∧
      (∀ sig, List.count sig r.requeued = List.count sig r.observed) ∧
      r.requeued.Perm r.observed ∧
      r.requeued.length = r.observed.length := by
  have hend := graceWait_until_timer pre post [] hpre
  rw [List.nil_append] at hend
  obtain ⟨r, hlog, hobs, hreq⟩ :=
    attempt_started_log s env pid _ findErr lag (signalsOf pre) post hfit hend
  have heq : r.requeued = r.observed := by rw [hreq, hobs, resend_eq]
  exact ⟨r, hlog, hobs, fun sig => by rw [heq], by rw [heq], by rw [heq]⟩

/-- C10, an instance: SIGHUP and then SIGTERM arrive before the timer, the pid
lookup succeeds, and both goroutines run only after the loop over the signals
has finished; SIGHUP and SIGTERM are each queued once. -/
theorem C10_requeue_preserves_signals_witness :
    ∃ r, (attempt (loopAt 101 1 ∅).s []
          (Attempt.started 102
            [GraceEvent.signal SIGHUP, GraceEvent.signal SIGTERM, GraceEvent.timer] false
            [1, 0])).log = [r] ∧
      r.observed = [SIGHUP, SIGTERM] ∧
      List.count SIGHUP r.requeued = 1 ∧ List.count SIGTERM r.requeued = 1 ∧
      r.requeued.length = 2 := by
  obtain ⟨r, hlog, hobs, hcount, -, hlen⟩ :=
    C10_requeue_preserves_signals (loopAt 101 1 ∅).s [] 102
      [GraceEvent.signal SIGHUP, GraceEvent.signal SIGTERM] [] false [1, 0]
      (by decide) (by decide)
  have hobs2 : r.observed = [SIGHUP, SIGTERM] := by rw [hobs]; decide
  refine ⟨r, hlog, hobs2, ?_, ?_, ?_⟩
  · rw [hcount, hobs2]; decide
  · rw [hcount, hobs2]; decide
  · rw [hlen, hobs2]; rfl

end ServerStarter
